import Mathlib



/-!
# Verification of the APK packaging and signing layer

This file gives a shallow embedding, in Lean 4, of the binary APK
packaging and signing layer of the repository (`utils/apktool.py`):
the DEX / AXML / ARSC byte encoders, the simulated ZIP assembler
(`_simulate_compile`), the size-floor padding (`_pad_apk_file`) and the
JAR-style signing pipeline (`_create_realistic_signed_apk` with its
MANIFEST.MF / CERT.SF / CERT.RSA builders), together with theorems
settling the specification claims about them.

Byte strings are modelled as `List Nat` with each element a byte value;
Python text strings are converted through their (ASCII) UTF-8 encoding.
SHA-1, SHA-256, Adler-32 and base64 are implemented concretely so that
all digest chains can be evaluated inside the logic.
-/

set_option maxRecDepth 100000

set_option maxHeartbeats 4000000

set_option exponentiation.threshold 1000000

namespace Apk

/-! ## Byte-level utilities -/

/-- Little-endian 2-byte encoding, as produced by `int.to_bytes(2, 'little')`. -/
def le16 (n : Nat) : List Nat := [n % 256, n / 256 % 256]

/-- Little-endian 4-byte encoding, as produced by `int.to_bytes(4, 'little')`. -/
def le32 (n : Nat) : List Nat :=
  [n % 256, n / 256 % 256, n / 65536 % 256, n / 16777216 % 256]

/-- Big-endian 2-byte encoding, as produced by `int.to_bytes(2, 'big')`. -/
def be16 (n : Nat) : List Nat := [n / 256 % 256, n % 256]

/-- Big-endian 4-byte encoding of a 32-bit word. -/
def be32 (n : Nat) : List Nat :=
  [n / 16777216 % 256, n / 65536 % 256, n / 256 % 256, n % 256]

/-- Big-endian 8-byte encoding of a 64-bit word. -/
def be64 (n : Nat) : List Nat :=
  [n / 72057594037927936 % 256, n / 281474976710656 % 256,
   n / 1099511627776 % 256, n / 4294967296 % 256,
   n / 16777216 % 256, n / 65536 % 256, n / 256 % 256, n % 256]

/-- Bytes of a Python string under UTF-8.  All strings appearing in the
source are ASCII, for which the UTF-8 encoding is the code-point sequence. -/
def strBytes (s : String) : List Nat := s.data.map Char.toNat

/-- In-place slice assignment `l[i:i+v.length] = v`, as used by the Python
code to backpatch size and digest fields. -/
def setSlice (l : List Nat) (i : Nat) (v : List Nat) : List Nat :=
  l.take i ++ v ++ l.drop (i + v.length)

/-- Continuation application after forcing a natural number to a literal.
`nfNat f n` is definitionally `f n` (see `nfNat_eq`); the case split makes
kernel evaluation of the accumulating loops below proceed with fully
evaluated accumulators, keeping the reduction stack shallow. -/
def nfNat (f : Nat → Nat) : Nat → Nat
  | 0 => f 0
  | m + 1 => f (m + 1)

/-- Tail-recursive list length with a forced accumulator, taking eight
elements per step so that kernel evaluation stays shallow. -/
def lenGo : List Nat → Nat → Nat
  | _ :: _ :: _ :: _ :: _ :: _ :: _ :: _ :: r, acc => nfNat (lenGo r) (acc + 8)
  | _ :: r, acc => nfNat (lenGo r) (acc + 1)
  | [], acc => acc

/-- Pad a byte list with zero bytes up to length `n`
(the `while len(data) < n: data.append(0)` idiom).  The length is taken
with the shallow-evaluating `lenGo`; see `padToLen_eq`. -/
def padToLen (l : List Nat) (n : Nat) : List Nat :=
  l ++ List.replicate (n - lenGo l 0) 0

/-- Pad with zero bytes to the next multiple of four
(the `while len(data) % 4 != 0: data.append(0)` idiom, valid whenever the
data starts at a 4-byte-aligned offset). -/
def alignTo4 (l : List Nat) : List Nat :=
  l ++ List.replicate ((4 - l.length % 4) % 4) 0

/-- A byte list as a single big-endian natural number, read eight bytes
per step with a forced accumulator. -/
def packGo : List Nat → Nat → Nat
  | b0 :: b1 :: b2 :: b3 :: b4 :: b5 :: b6 :: b7 :: r, acc =>
      nfNat (packGo r)
        (acc * 18446744073709551616 +
          ((((((b0 * 256 + b1) * 256 + b2) * 256 + b3) * 256 + b4) * 256 + b5)
            * 256 + b6) * 256 + b7)
  | b :: r, acc => nfNat (packGo r) (acc * 256 + b)
  | [], acc => acc

/-! ## Adler-32 (`zlib.adler32`) -/

/-- Adler-32 over `s` single bytes of the packed message `msg`, with `r`
bytes in total still to process (`s ≤ r`); the accumulator packs the
running sums as `s2 · 65536 + s1` (each sum stays below 65521). -/
def adlerSingles (msg : Nat) : Nat → Nat → Nat → Nat
  | 0, _, acc => acc
  | s + 1, r, acc =>
      nfNat (adlerSingles msg s (r - 1))
        ((acc / 65536 + (acc % 65536 + msg / 256 ^ (r - 1) % 256) % 65521) % 65521
          * 65536 + (acc % 65536 + msg / 256 ^ (r - 1) % 256) % 65521)

/-- Adler-32 over `k` sixteen-byte chunks of the packed message `msg`,
with `r` bytes in total still to process (`16 · k = r`).  Processing
sixteen bytes per step keeps kernel evaluation shallow. -/
def adlerChunks (msg : Nat) : Nat → Nat → Nat → Nat
  | 0, _, acc => acc
  | k + 1, r, acc =>
      let w := msg / 256 ^ (r - 16) % 340282366920938463463374607431768211456
      let b0 := w / 2 ^ 120
      let b1 := w / 2 ^ 112 % 256
      let b2 := w / 2 ^ 104 % 256
      let b3 := w / 2 ^ 96 % 256
      let b4 := w / 2 ^ 88 % 256
      let b5 := w / 2 ^ 80 % 256
      let b6 := w / 2 ^ 72 % 256
      let b7 := w / 2 ^ 64 % 256
      let b8 := w / 2 ^ 56 % 256
      let b9 := w / 2 ^ 48 % 256
      let b10 := w / 2 ^ 40 % 256
      let b11 := w / 2 ^ 32 % 256
      let b12 := w / 2 ^ 24 % 256
      let b13 := w / 2 ^ 16 % 256
      let b14 := w / 2 ^ 8 % 256
      let b15 := w % 256
      let s1 := acc % 65536
      let s2 := acc / 65536
      let sum := b0 + b1 + b2 + b3 + b4 + b5 + b6 + b7 + b8 + b9 + b10 +
        b11 + b12 + b13 + b14 + b15
      let wsum := 16 * b0 + 15 * b1 + 14 * b2 + 13 * b3 + 12 * b4 + 11 * b5 +
        10 * b6 + 9 * b7 + 8 * b8 + 7 * b9 + 6 * b10 + 5 * b11 + 4 * b12 +
        3 * b13 + 2 * b14 + b15
      nfNat (adlerChunks msg k (r - 16))
        ((s2 + 16 * s1 + wsum) % 65521 * 65536 + (s1 + sum) % 65521)

/-- `zlib.adler32` over a byte list (initial value 1): the first
`length mod 16` bytes are processed singly, the rest in chunks. -/
def adler32 (data : List Nat) : Nat :=
  let msg := packGo data 0
  let L := lenGo data 0
  adlerChunks msg (L / 16) (L - L % 16) (adlerSingles msg (L % 16) L 1)

/-! ## SHA-1 (`hashlib.sha1`) -/

/-- Truncation to a 32-bit word. -/
def w32 (n : Nat) : Nat := n % 4294967296

/-- Left rotation of a 32-bit word by `k` bits. -/
def rotl32 (k x : Nat) : Nat := (w32 (x <<< k)) ||| (x >>> (32 - k))

/-- The `k`-byte big-endian encoding of a natural number. -/
def natBytesBE : Nat → Nat → List Nat
  | 0, _ => []
  | k + 1, n => n / 256 ^ k % 256 :: natBytesBE k n

/-- The SHA-1 round function `f_t`. -/
def sha1F (t b c d : Nat) : Nat :=
  if t < 20 then (b &&& c) ||| ((b ^^^ 4294967295) &&& d)
  else if t < 40 then b ^^^ c ^^^ d
  else if t < 60 then (b &&& c) ||| (b &&& d) ||| (c &&& d)
  else b ^^^ c ^^^ d

/-- The SHA-1 round constant `K_t`. -/
def sha1K (t : Nat) : Nat :=
  if t < 20 then 1518500249
  else if t < 40 then 1859775393
  else if t < 60 then 2400959708
  else 3395469782

/-- The eighty SHA-1 rounds.  For efficient evaluation inside the kernel
the five-word working state is packed into a single natural number
(`a·2^128 + b·2^96 + c·2^64 + d·2^32 + e`) and the sliding sixteen-word
message-schedule window into another (`w_{t-16}` most significant). -/
def sha1Go : Nat → Nat → Nat → Nat → Nat
  | 0, _, _, st => st
  | fuel + 1, t, win, st =>
    let top := win / 2 ^ 480
    let wt := if t < 16 then top
      else rotl32 1 ((win / 2 ^ 416 % 4294967296) ^^^ (win / 2 ^ 224 % 4294967296) ^^^
                     (win / 2 ^ 64 % 4294967296) ^^^ top)
    let a := st / 2 ^ 128
    let b := st / 2 ^ 96 % 4294967296
    let c := st / 2 ^ 64 % 4294967296
    let d := st / 2 ^ 32 % 4294967296
    let e := st % 4294967296
    let tmp := w32 (rotl32 5 a + sha1F t b c d + e + sha1K t + wt)
    nfNat (fun win2 => nfNat (sha1Go fuel (t + 1) win2)
        ((((tmp * 4294967296 + a) * 4294967296 + rotl32 30 b) * 4294967296 + c)
            * 4294967296 + d))
      (win % 2 ^ 480 * 4294967296 + wt)

/-- One SHA-1 compression-function application; `win` is the packed
512-bit message block. -/
def sha1Block (h win : Nat) : Nat :=
  let st := sha1Go 80 0 win h
  (((w32 (h / 2 ^ 128 + st / 2 ^ 128) * 4294967296 +
     w32 (h / 2 ^ 96 % 4294967296 + st / 2 ^ 96 % 4294967296)) * 4294967296 +
     w32 (h / 2 ^ 64 % 4294967296 + st / 2 ^ 64 % 4294967296)) * 4294967296 +
     w32 (h / 2 ^ 32 % 4294967296 + st / 2 ^ 32 % 4294967296)) * 4294967296 +
     w32 (h % 4294967296 + st % 4294967296)

/-- Fold of the SHA-1 compression function over the `b` remaining 512-bit
blocks of the packed padded message `p`, with a forced accumulator. -/
def sha1BlocksGo : Nat → Nat → Nat → Nat
  | 0, _, h => h
  | b + 1, p, h =>
      nfNat (sha1BlocksGo b p) (sha1Block h (p / 2 ^ (512 * b) % 2 ^ 512))

/-- `hashlib.sha1(...).digest()` over a byte list: the 20-byte digest.
Padding is performed arithmetically on the packed message; the initial
value packs the standard words `67452301 efcdab89 98badcfe 10325476
c3d2e1f0`. -/
def sha1 (msg : List Nat) : List Nat :=
  let L := lenGo msg 0
  let z := (119 - L % 64) % 64
  natBytesBE 20 (sha1BlocksGo ((L + 9 + z) / 64)
    (packGo msg 0 * 2 ^ (8 * (z + 9)) + 128 * 2 ^ (8 * (z + 8)) + 8 * L)
    589567850402597453564513526754136399297876517360)

/-! ## SHA-256 (`hashlib.sha256`) -/

/-- Right rotation of a 32-bit word by `k` bits. -/
def rotr32 (k x : Nat) : Nat := (x >>> k) ||| (w32 (x <<< (32 - k)))

/-- The sixty-four SHA-256 round constants packed into one natural number,
`K_0` most significant. -/
def sha256KPack : Nat :=
  8399870144517823301722239222130927227141849779511242471197906795369846673996008864786532278482947930035050432913372875699354429524650716672308175015812472005008943341011247634627600705591103756174659437448007297240981034636327441933849465611186184660803773840414514428031635770391245199770927811112653141372483794982516161135727373084047811483050876080270389320947077305721183235613169389468744126235534648516788175255292025668825020963291224099932572215580391753777671218957634024159536228058522778003881673030597872562207069818177476920296259993961459554031943090626293016819766823808480230688357231269177224952050

/-- The sixty-four SHA-256 rounds, with the eight-word working state and
the sixteen-word schedule window packed as in `sha1Go`. -/
def sha256Go : Nat → Nat → Nat → Nat → Nat
  | 0, _, _, st => st
  | fuel + 1, t, win, st =>
    let w16 := win / 2 ^ 480
    let wt := if t < 16 then w16
      else
        let w15 := win / 2 ^ 448 % 4294967296
        let w7 := win / 2 ^ 192 % 4294967296
        let w2 := win / 2 ^ 32 % 4294967296
        let s0 := (rotr32 7 w15) ^^^ (rotr32 18 w15) ^^^ (w15 >>> 3)
        let s1 := (rotr32 17 w2) ^^^ (rotr32 19 w2) ^^^ (w2 >>> 10)
        w32 (s1 + w7 + s0 + w16)
    let a := st / 2 ^ 224
    let b := st / 2 ^ 192 % 4294967296
    let c := st / 2 ^ 160 % 4294967296
    let d := st / 2 ^ 128 % 4294967296
    let e := st / 2 ^ 96 % 4294967296
    let f := st / 2 ^ 64 % 4294967296
    let g := st / 2 ^ 32 % 4294967296
    let h := st % 4294967296
    let s1e := (rotr32 6 e) ^^^ (rotr32 11 e) ^^^ (rotr32 25 e)
    let ch := (e &&& f) ^^^ ((e ^^^ 4294967295) &&& g)
    let t1 := w32 (h + s1e + ch + sha256KPack / 2 ^ (32 * (63 - t)) % 4294967296 + wt)
    let s0a := (rotr32 2 a) ^^^ (rotr32 13 a) ^^^ (rotr32 22 a)
    let mj := (a &&& b) ^^^ (a &&& c) ^^^ (b &&& c)
    let t2 := w32 (s0a + mj)
    nfNat (fun win2 => nfNat (sha256Go fuel (t + 1) win2)
        ((((((((w32 (t1 + t2) * 4294967296 + a) * 4294967296 + b) * 4294967296 + c)
            * 4294967296 + w32 (d + t1)) * 4294967296 + e) * 4294967296 + f)
            * 4294967296 + g)))
      (win % 2 ^ 480 * 4294967296 + wt)

/-- One SHA-256 compression-function application; `win` is the packed
512-bit message block. -/
def sha256Block (h win : Nat) : Nat :=
  let st := sha256Go 64 0 win h
  ((((((w32 (h / 2 ^ 224 + st / 2 ^ 224) * 4294967296 +
    w32 (h / 2 ^ 192 % 4294967296 + st / 2 ^ 192 % 4294967296)) * 4294967296 +
    w32 (h / 2 ^ 160 % 4294967296 + st / 2 ^ 160 % 4294967296)) * 4294967296 +
    w32 (h / 2 ^ 128 % 4294967296 + st / 2 ^ 128 % 4294967296)) * 4294967296 +
    w32 (h / 2 ^ 96 % 4294967296 + st / 2 ^ 96 % 4294967296)) * 4294967296 +
    w32 (h / 2 ^ 64 % 4294967296 + st / 2 ^ 64 % 4294967296)) * 4294967296 +
    w32 (h / 2 ^ 32 % 4294967296 + st / 2 ^ 32 % 4294967296)) * 4294967296 +
    w32 (h % 4294967296 + st % 4294967296)

/-- Fold of the SHA-256 compression function over the `b` remaining
512-bit blocks of the packed padded message `p`. -/
def sha256BlocksGo : Nat → Nat → Nat → Nat
  | 0, _, h => h
  | b + 1, p, h =>
      nfNat (sha256BlocksGo b p) (sha256Block h (p / 2 ^ (512 * b) % 2 ^ 512))

/-- `hashlib.sha256(...).digest()` over a byte list: the 32-byte digest.
The initial value packs the standard words `6a09e667 … 5be0cd19`. -/
def sha256 (msg : List Nat) : List Nat :=
  let L := lenGo msg 0
  let z := (119 - L % 64) % 64
  natBytesBE 32 (sha256BlocksGo ((L + 9 + z) / 64)
    (packGo msg 0 * 2 ^ (8 * (z + 9)) + 128 * 2 ^ (8 * (z + 8)) + 8 * L)
    47962653771679561900652889051773562940742041696833059450490514104358170316057)

/-! ## Base64 (`base64.b64encode`) -/

/-- The base64 alphabet as byte values. -/
def b64Char (n : Nat) : Nat :=
  if n < 26 then 65 + n
  else if n < 52 then 97 + (n - 26)
  else if n < 62 then 48 + (n - 52)
  else if n = 62 then 43
  else 47

/-- `base64.b64encode` over a byte list; the result is the ASCII bytes of
the base64 text, including `=` padding. -/
def b64Encode : List Nat → List Nat
  | a :: b :: c :: rest =>
      let n := (a * 256 + b) * 256 + c
      b64Char (n / 262144) :: b64Char (n / 4096 % 64) ::
      b64Char (n / 64 % 64) :: b64Char (n % 64) :: b64Encode rest
  | [a, b] =>
      let n := a * 256 + b
      [b64Char (n / 1024), b64Char (n / 16 % 64), b64Char (n % 16 * 4), 61]
  | [a] =>
      [b64Char (a / 4), b64Char (a % 4 * 16), 61, 61]
  | [] => []

/-! ## The DEX encoder (`_create_realistic_dex`) -/

/-- The built-in string table of the DEX encoder (`common_strings`; the
`[:string_ids_size]` slice keeps all ten). -/
def dexStrings : List String :=
  ["Ljava/lang/Object;", "<init>", "()V", "toString",
   "MainActivity", "onClick", "onCreate", "Landroid/app/Activity;",
   "Landroid/view/View;", "Landroid/content/Context;"]

/-- `base_size = max(4096, target_size // 4)`; also the `file_size` header
field and the length of the returned payload. -/
def dexFileSize (targetSize : Nat) : Nat := max 4096 (targetSize / 4)

/-- The 0x70-byte DEX header with zero placeholders in the checksum and
signature fields: magic, sizes and the `(count, offset)` id-table
descriptors at the constant offsets computed by the source (string ids
at 0x70, type ids at 192, proto ids at 232, method ids at 292, class
defs at 332, data at 364). -/
def dexHeader (targetSize : Nat) : List Nat :=
  let fileSize := dexFileSize targetSize
  let mapOff := fileSize - 32
  strBytes "dex\n039" ++ [0] ++
  List.replicate 4 0 ++ List.replicate 20 0 ++
  le32 fileSize ++ le32 112 ++ le32 305419896 ++ le32 0 ++ le32 0 ++
  le32 mapOff ++ le32 20 ++ le32 112 ++ le32 10 ++ le32 192 ++
  le32 5 ++ le32 232 ++ le32 0 ++ le32 0 ++ le32 5 ++ le32 292 ++
  le32 1 ++ le32 332 ++ le32 (mapOff - 364) ++ le32 364

/-- The string-id, type-id, proto-id, method-id and class-def tables
(252 bytes, independent of the target size). -/
def dexTables : List Nat :=
  (List.range 20).flatMap (fun i => le32 (364 + i * 16)) ++
  (List.range 10).flatMap (fun i => le32 (i % 20)) ++
  (List.range 5).flatMap (fun i => le32 (i % 20) ++ le32 0 ++ le32 0) ++
  (List.range 5).flatMap (fun i => le16 (i % 10) ++ le16 (i % 5) ++ le32 (i % 20)) ++
  (le32 0 ++ le32 1 ++ le32 0 ++ le32 0 ++ le32 0 ++ le32 0 ++ le32 0 ++ le32 0)

/-- The string-data section: each entry is a length byte, the bytes and a
null terminator, 4-aligned.  The per-string `alignTo4` matches the
source's global 4-alignment because the section starts at the aligned
offset 364. -/
def dexStringData : List Nat :=
  dexStrings.flatMap (fun s => alignTo4 (s.length :: strBytes s ++ [0]))

/-- The 28-byte trailing map list (header and string-id entries). -/
def dexMapList : List Nat :=
  le32 8 ++ le16 0 ++ le16 0 ++ le32 1 ++ le32 0 ++
  le16 4096 ++ le16 0 ++ le32 20 ++ le32 112

/-- The DEX image before the checksum and signature are backpatched:
header, id tables, class definition, string data and trailing map list,
with zero-padding up to the data section, the map list and the file
size. -/
def dexPre (targetSize : Nat) : List Nat :=
  padToLen
    (padToLen (padToLen (dexHeader targetSize ++ dexTables) 364 ++ dexStringData)
        (dexFileSize targetSize - 32) ++ dexMapList)
    (dexFileSize targetSize)

/-- The DEX image after the Adler-32 checksum over bytes `[12:]` is
written at offset 8 (the signature field is still zero at this point). -/
def dexAfterCk (targetSize : Nat) : List Nat :=
  setSlice (dexPre targetSize) 8 (le32 (adler32 ((dexPre targetSize).drop 12)))

/-- `_create_realistic_dex(target_size)`: after the checksum patch, the
SHA-1 over bytes `[32:]` is written at offset 12 and the result is
truncated to `file_size` (a no-op, as the image already has that length). -/
def createRealisticDex (targetSize : Nat) : List Nat :=
  let a := dexAfterCk targetSize
  (setSlice a 12 (sha1 (a.drop 32))).take (dexFileSize targetSize)

/-! ## The binary-XML encoder (`_create_binary_manifest_default`,
`_create_binary_xml`) -/

/-- Cumulative string-pool offsets: each entry advances by
`1 + utf8-length + 1` (length byte, data, null terminator). -/
def strOffsets : List String → Nat → List Nat
  | [], _ => []
  | s :: r, off => off :: strOffsets r (off + s.length + 2)

/-- The twenty-six strings of the default binary manifest's pool. -/
def axmlStrings : List String :=
  ["manifest", "android", "http://schemas.android.com/apk/res/android",
   "package", "com.example.modifiedapp", "versionCode", "versionName",
   "compileSdkVersion", "compileSdkVersionCodename", "platformBuildVersionCode",
   "platformBuildVersionName", "uses-sdk", "minSdkVersion", "targetSdkVersion",
   "application", "allowBackup", "icon", "label", "theme", "activity",
   "name", ".MainActivity", "exported", "intent-filter", "action", "category"]

/-- The AXML string-pool chunk: header (with the hard-coded declared
chunk size 0x144 = 324 and strings-start 136), offset table, and the
length-prefixed null-terminated UTF-8 string data, 4-aligned. -/
def axmlStringPool : List Nat :=
  alignTo4
    ([1, 0, 28, 0] ++ [68, 1, 0, 0] ++ [26, 0, 0, 0] ++ [0, 0, 0, 0] ++
     [0, 1, 0, 0] ++ [136, 0, 0, 0] ++ [0, 0, 0, 0] ++
     (strOffsets axmlStrings 0).flatMap le32 ++
     axmlStrings.flatMap (fun s => s.length :: strBytes s ++ [0]))

/-- The resource-map chunk binding twelve Android attribute ids. -/
def axmlResourceMap : List Nat :=
  [128, 1, 8, 0] ++ [56, 0, 0, 0] ++
  [16777219, 16843292, 16843291, 16844146, 16844147, 16843276, 16843376,
   16842988, 16843005, 16842753, 16842752, 16843006].flatMap le32

/-- The start-namespace chunk. -/
def axmlStartNamespace : List Nat :=
  [0, 1, 16, 0] ++ [24, 0, 0, 0] ++ [2, 0, 0, 0] ++ [255, 255, 255, 255] ++
  [1, 0, 0, 0] ++ [2, 0, 0, 0]

/-- The `<manifest>` start-element chunk: declared size 0xE4 = 228 but
only 108 bytes emitted (header, attribute block and three 24-byte
attributes). -/
def axmlManifestElem : List Nat :=
  [2, 1, 16, 0] ++ [228, 0, 0, 0] ++ [3, 0, 0, 0] ++ [255, 255, 255, 255] ++
  [255, 255, 255, 255] ++ [0, 0, 0, 0] ++
  [20, 0] ++ [20, 0] ++ [9, 0] ++ [0, 0] ++ [0, 0] ++ [0, 0] ++
  [1, 0, 0, 0, 3, 0, 0, 0, 4, 0, 0, 0, 8, 0, 0, 0, 0, 0, 0, 0, 4, 0, 0, 0] ++
  [1, 0, 0, 0, 5, 0, 0, 0, 255, 255, 255, 255, 8, 0, 0, 0, 0, 0, 16, 0, 1, 0, 0, 0] ++
  [1, 0, 0, 0, 6, 0, 0, 0, 6, 0, 0, 0, 8, 0, 0, 0, 0, 0, 0, 0, 6, 0, 0, 0]

/-- `_create_binary_manifest_default()`: AXML header, string pool,
resource map, namespace and element chunks, 256/512/128-byte element
placeholders, zero-padded to at least 2048 bytes, with the total file
size backpatched at offset 4. -/
def createBinaryManifestDefault : List Nat :=
  let m := padToLen
    ([3, 0, 8, 0] ++ [140, 4, 0, 0] ++
     axmlStringPool ++ axmlResourceMap ++ axmlStartNamespace ++ axmlManifestElem ++
     ([2, 1, 16, 0] ++ [132, 0, 0, 0] ++ List.replicate 248 0) ++
     ([2, 1, 16, 0] ++ List.replicate 508 0) ++
     List.replicate 128 0)
    2048
  setSlice m 4 (le32 (lenGo m 0))

/-- `_create_binary_xml(path)`: the fixed 1024-byte placeholder blob
emitted for every resource XML file.  The source never reads the input
file, so the output is independent of the file's content. -/
def createBinaryXml : List Nat :=
  [3, 0, 8, 0] ++ [0, 4, 0, 0] ++
  (List.range 254).flatMap (fun k => [(k + 2) % 256, 0, 0, 0])

/-! ## The resource-table encoder (`_create_resources_arsc`) -/

/-- The eight strings of the resource table's global string pool. -/
def arscResourceStrings : List String :=
  ["app_name", "Modified App", "button_text", "Click Me",
   "activity_main", "MainActivity", "android", "string"]

/-- The 12-byte table header with a zero placeholder for the total size
(patched later) and package count 1. -/
def arscTableHeaderRaw : List Nat := [2, 0] ++ [12, 0] ++ [0, 0, 0, 0] ++ [1, 0, 0, 0]

/-- The global string-pool chunk with a zero placeholder for its size
(patched later), the strings-start value 68 computed by the source, the
offset table and the string data, 4-aligned. -/
def arscStringPoolChunk : List Nat :=
  alignTo4
    ([1, 0] ++ [28, 0] ++ [0, 0, 0, 0] ++ le32 8 ++ [0, 0, 0, 0] ++ [0, 1, 0, 0] ++
     le32 68 ++ [0, 0, 0, 0] ++
     (strOffsets arscResourceStrings 0).flatMap le32 ++
     arscResourceStrings.flatMap (fun s => s.length :: strBytes s ++ [0]))

/-- The package chunk with a zero placeholder for its size (patched
later): package id 0x7F, the UTF-16LE package name padded until the name
region reaches 256 bytes, five zero fields, a type-spec chunk (declared
size 32, 24 bytes emitted) and a type chunk (declared size 128, 108
bytes emitted) with two string entries. -/
def arscPackageChunk : List Nat :=
  [0, 2] ++ [32, 1] ++ [0, 0, 0, 0] ++ [127, 0, 0, 0] ++
  (strBytes "com.example.modifiedapp").flatMap (fun b => [b, 0]) ++
  List.replicate 214 0 ++
  le32 0 ++ le32 0 ++ le32 0 ++ le32 0 ++ le32 0 ++
  ([2, 2] ++ [16, 0] ++ [32, 0, 0, 0] ++ [1] ++ [0, 0, 0] ++ [2, 0, 0, 0] ++
   [0, 0, 0, 0] ++ [0, 0, 0, 0]) ++
  ([1, 2] ++ [92, 0] ++ [128, 0, 0, 0] ++ [1] ++ [0, 0, 0] ++ [2, 0, 0, 0] ++
   [104, 0, 0, 0] ++ List.replicate 64 0 ++
   [0, 0, 0, 0] ++ [8, 0, 0, 0] ++
   ([8, 0] ++ [0, 0] ++ le32 1) ++ ([8, 0] ++ [0, 0] ++ le32 3))

/-- `_create_resources_arsc()`: table header, global string pool and
package chunk; the pool size, package size and total size are
backpatched from the running lengths, then the payload is zero-padded to
4096 bytes. -/
def createResourcesArsc : List Nat :=
  let l := arscTableHeaderRaw ++ arscStringPoolChunk ++ arscPackageChunk
  let l1 := setSlice l 16 (le32 (lenGo arscStringPoolChunk 0))
  let l2 := setSlice l1 172 (le32 (lenGo arscPackageChunk 0))
  let l3 := setSlice l2 4 (le32 (lenGo l 0))
  padToLen l3 4096

/-! ## Byte-level models of the Python string operations used by the
signer (split, join, strip and startswith over CRLF text) -/

/-- Prepend a byte to the first piece of a split result. -/
def mdCons (a : Nat) : List (List Nat) → List (List Nat)
  | [] => [[a]]
  | x :: xs => (a :: x) :: xs

/-- Prepend a byte string to the first piece of a split result. -/
def mdApp (p : List Nat) : List (List Nat) → List (List Nat)
  | [] => [p]
  | x :: xs => (p ++ x) :: xs

/-- Python `text.split('\r\n\r\n')` over bytes: leftmost-first,
non-overlapping separators. -/
def splitSections : List Nat → List (List Nat)
  | [] => [[]]
  | 13 :: 10 :: 13 :: 10 :: r => [] :: splitSections r
  | a :: r => mdCons a (splitSections r)

/-- Python `text.split('\r\n')` over bytes. -/
def splitLines : List Nat → List (List Nat)
  | [] => [[]]
  | 13 :: 10 :: r => [] :: splitLines r
  | a :: r => mdCons a (splitLines r)

/-- Python `'\r\n'.join` over byte strings. -/
def joinCRLF : List (List Nat) → List Nat
  | [] => []
  | [x] => x
  | x :: y :: r => x ++ 13 :: 10 :: joinCRLF (y :: r)

/-- Python whitespace, as stripped by `str.strip()`. -/
def pySpace (b : Nat) : Bool :=
  b = 32 || b = 9 || b = 10 || b = 13 || b = 11 || b = 12

/-- Truthiness of `section.strip()`: some non-whitespace byte remains. -/
def sectionNonBlank (piece : List Nat) : Bool := piece.any (fun b => ! pySpace b)

/-- The first `Name: `-line's value in a manifest section, as extracted
by the CERT.SF builder (`line[6:]` of the first line starting with
`Name: `). -/
def findNameLine (piece : List Nat) : Option (List Nat) :=
  ((splitLines piece).find? (fun l => l.take 6 == strBytes "Name: ")).map
    (fun l => l.drop 6)

/-! ## The signing pipeline (`_create_realistic_signed_apk`,
`_create_enhanced_manifest_mf`, `_create_enhanced_cert_sf`,
`_create_enhanced_cert_rsa`, `_ensure_essential_files`,
`_validate_signed_apk`).

Archives are modelled as ordered lists of `(name, payload)` pairs — the
ZIP name list and the stored bytes per entry. -/

/-- `name.startswith('META-INF/')`. -/
def isMetaInf (name : String) : Bool := name.take 9 == "META-INF/"

/-- The non-`META-INF/` entries of an archive, in order. -/
def nonMetaEntries (archive : List (String × List Nat)) : List (String × List Nat) :=
  archive.filter (fun e => ! isMetaInf e.1)

/-- The three lines of one MANIFEST.MF entry section (name, SHA-1 and
SHA-256 digests in base64), without the terminating blank line. -/
def mfSectionLines (e : String × List Nat) : List (List Nat) :=
  [strBytes "Name: " ++ strBytes e.1,
   strBytes "SHA1-Digest: " ++ b64Encode (sha1 e.2),
   strBytes "SHA-256-Digest: " ++ b64Encode (sha256 e.2)]

/-- The four header lines of MANIFEST.MF. -/
def mfHeaderLines (buildDate : String) : List (List Nat) :=
  [strBytes "Manifest-Version: 1.0",
   strBytes "Built-By: APK Editor Pro",
   strBytes "Created-By: APK Editor Enhanced System",
   strBytes "Build-Date: " ++ strBytes buildDate]

/-- `_create_enhanced_manifest_mf(zip)`: header lines, a blank line,
then one digest section per non-META-INF entry of the *input* archive,
each followed by a blank line, all joined with CRLF.  The digests are
computed over the input archive's stored payloads. -/
def createEnhancedManifestMf (archive : List (String × List Nat))
    (buildDate : String) : List Nat :=
  joinCRLF (mfHeaderLines buildDate ++ [[]] ++
    (nonMetaEntries archive).flatMap (fun e => mfSectionLines e ++ [[]]))

/-- The `sections[0] + '\r\n'` value hashed as the manifest's main
attributes by the CERT.SF builder. -/
def certSfMainAttrs (manifest : List Nat) : List Nat :=
  ((splitSections manifest).headD []) ++ [13, 10]

/-- The `(filename, SHA1-digest-base64)` pairs emitted into CERT.SF: one
per non-blank piece of `manifest.split('\r\n\r\n')[1:]` carrying a
`Name: ` line; the digest is SHA-1 of the piece with `'\r\n\r\n'`
re-appended. -/
def certSfEntries (manifest : List Nat) : List (List Nat × List Nat) :=
  ((splitSections manifest).drop 1).filterMap (fun piece =>
    if sectionNonBlank piece then
      (findNameLine piece).map
        (fun nm => (nm, b64Encode (sha1 (piece ++ [13, 10, 13, 10]))))
    else none)

/-- `_create_enhanced_cert_sf(manifest)`: the signature file bytes. -/
def createEnhancedCertSf (manifest : List Nat) (sigDate : String) : List Nat :=
  joinCRLF
    ([strBytes "Signature-Version: 1.0",
      strBytes "SHA1-Digest-Manifest: " ++ b64Encode (sha1 manifest),
      strBytes "SHA1-Digest-Manifest-Main-Attributes: " ++
        b64Encode (sha1 (certSfMainAttrs manifest)),
      strBytes "Created-By: APK Editor Enhanced",
      strBytes "Signature-Date: " ++ strBytes sigDate,
      []] ++
     (certSfEntries manifest).flatMap (fun p =>
       [strBytes "Name: " ++ p.1, strBytes "SHA1-Digest: " ++ p.2, []]))

/-- The 3072-byte SignedData region of `_create_enhanced_cert_rsa`:
version, digest-algorithm set and content-info headers, pseudo-random
certificate bytes seeded by the wall-clock timestamp `ts`, a pseudo RSA
signature region, and an X.509-shaped overwrite at offset 2000. -/
def certRsaSignedData (ts : Nat) : List Nat :=
  setSlice
    (setSlice
      (setSlice
        (setSlice
          (setSlice (List.replicate 3072 0) 0 [2, 1, 1])
          3 [49, 11, 48, 9, 6, 5, 43, 14, 3, 2, 26, 5])
        15 [48, 11, 6, 9, 42, 134, 72, 134, 247, 13, 1, 7, 1, 5, 0])
      50 ((List.range 950).map (fun k => (50 + k + ts + 127) % 256)))
    1500 ((List.range 512).map (fun k => ((1500 + k) * 7 + ts) % 256))
  |> (fun l => setSlice l 2000 [48, 130, 2, 92, 48, 130, 1, 69, 160, 3])

/-- `_create_enhanced_cert_rsa()`: PKCS#7-shaped container with the
SignedData OID and a big-endian 2-byte length. -/
def createEnhancedCertRsa (ts : Nat) : List Nat :=
  let certBody := [6, 9, 42, 134, 72, 134, 247, 13, 1, 7, 2] ++ [160, 130] ++
    certRsaSignedData ts
  [48, 130] ++ be16 (lenGo certBody 0) ++ certBody

/-- The copy step of `_create_realistic_signed_apk`: every non-META-INF
entry of the input is written to the output; an `AndroidManifest.xml`
payload under 100 bytes is replaced by the regenerated default binary
manifest. -/
def copiedEntries (input : List (String × List Nat)) : List (String × List Nat) :=
  (nonMetaEntries input).map (fun e =>
    if e.1 = "AndroidManifest.xml" ∧ e.2.length < 100
    then (e.1, createBinaryManifestDefault) else e)

/-- `_ensure_essential_files`: default entries appended for any of the
three essential names missing from the *input* archive's name list. -/
def ensureEssentialFiles (input : List (String × List Nat)) : List (String × List Nat) :=
  (if "AndroidManifest.xml" ∈ input.map Prod.fst then []
   else [("AndroidManifest.xml", createBinaryManifestDefault)]) ++
  (if "classes.dex" ∈ input.map Prod.fst then []
   else [("classes.dex", createRealisticDex 500000)]) ++
  (if "resources.arsc" ∈ input.map Prod.fst then []
   else [("resources.arsc", createResourcesArsc)])

/-- `_create_realistic_signed_apk`: the output archive's ordered entry
list — copied entries, backfilled essentials, then MANIFEST.MF, CERT.SF
and CERT.RSA.  `buildDate`, `sigDate` and `rsaTs` stand for the wall
clock values read during signing. -/
def createRealisticSignedApk (input : List (String × List Nat))
    (buildDate sigDate : String) (rsaTs : Nat) : List (String × List Nat) :=
  copiedEntries input ++ ensureEssentialFiles input ++
  [("META-INF/MANIFEST.MF", createEnhancedManifestMf input buildDate),
   ("META-INF/CERT.SF",
     createEnhancedCertSf (createEnhancedManifestMf input buildDate) sigDate),
   ("META-INF/CERT.RSA", createEnhancedCertRsa rsaTs)]

/-- `_validate_signed_apk`: the three signature entries must be present
with stored size at least 50 bytes. -/
def validateSignedApk (archive : List (String × List Nat)) : Bool :=
  ["META-INF/MANIFEST.MF", "META-INF/CERT.SF", "META-INF/CERT.RSA"].all
    (fun s => match archive.find? (fun e => e.1 = s) with
      | some e => 50 ≤ e.2.length
      | none => false)

/-- The tail of `_create_realistic_signed_apk` after the archive was
written: both branches of the validation check return `True` (the
failing branch only logs a warning). -/
def signApkOutcome (archive : List (String × List Nat)) : Bool :=
  if validateSignedApk archive then true else true

/-- The head of a byte string is not a carriage return (vacuous for the
empty string). -/
def headNot13 : List Nat → Prop
  | [] => True
  | b :: _ => b ≠ 13

/-! ## Decompositions of MANIFEST.MF used by the CERT.SF analysis -/

/-- One manifest entry section as a single byte string: its three
CRLF-joined lines, with no terminator. -/
def mfSectionPiece (e : String × List Nat) : List Nat :=
  joinCRLF (mfSectionLines e)

/-- A manifest entry section together with its blank-line terminator:
the section's lines, each CRLF-terminated, followed by the empty line. -/
def mfSectionWithTerminator (e : String × List Nat) : List Nat :=
  mfSectionPiece e ++ [13, 10, 13, 10]

/-- The CRLF-joined manifest header block (without trailing CRLF). -/
def mfHeaderPiece (buildDate : String) : List Nat :=
  joinCRLF (mfHeaderLines buildDate)

/-- The byte string of the manifest's section region: sections separated
by blank lines, with a single trailing CRLF after the last section. -/
def mfSecsBytes : List (String × List Nat) → List Nat
  | [] => []
  | [e] => mfSectionPiece e ++ [13, 10]
  | e :: e2 :: r => mfSectionPiece e ++ 13 :: 10 :: 13 :: 10 :: mfSecsBytes (e2 :: r)

/-- The pieces that `manifest.split('\r\n\r\n')[1:]` resolves to: one
per entry, with the last piece retaining the manifest's final CRLF. -/
def mfPieces : List (String × List Nat) → List (List Nat)
  | [] => []
  | [e] => [mfSectionPiece e ++ [13, 10]]
  | e :: e2 :: r => mfSectionPiece e :: mfPieces (e2 :: r)

/-- The CERT.SF entry list the code produces, expressed entrywise: every
section digest is SHA-1 of the section with its blank-line terminator,
except the last, which receives one extra CRLF. -/
def certExpected : List (String × List Nat) → List (List Nat × List Nat)
  | [] => []
  | [e] => [(strBytes e.1, b64Encode (sha1 (mfSectionWithTerminator e ++ [13, 10])))]
  | e :: e2 :: r =>
      (strBytes e.1, b64Encode (sha1 (mfSectionWithTerminator e))) :: certExpected (e2 :: r)

/-- A manifest section piece viewed as `Name:`-line plus CRLF plus tail. -/
def pieceOf (e : String × List Nat) (X : List Nat) : List Nat :=
  strBytes "Name: " ++ (strBytes e.1 ++ 13 :: 10 :: X)

/-- The per-piece transformation applied by the CERT.SF builder. -/
def certPieceEntry (piece : List Nat) : Option (List Nat × List Nat) :=
  if sectionNonBlank piece then
    (findNameLine piece).map
      (fun nm => (nm, b64Encode (sha1 (piece ++ [13, 10, 13, 10]))))
  else none

/-! ## The compile pipeline (`_simulate_compile`,
`_add_resources_to_apk`, `_create_binary_xml`, `_pad_apk_file`).

A decompiled source tree is modelled by the directory contents the code
walks: the optional `AndroidManifest.xml`, and the `res/`, `assets/` and
`lib/` directories, each an ordered (walk-order) list of files.  A file
that the OS fails to read raises in the Python loops; the `readable`
flag models that. -/

/-- One file of the decompiled tree: archive-relative path, its bytes,
and whether reading succeeds. -/
structure SrcFile where
  path : String
  content : List Nat
  readable : Bool

/-- The portions of the decompiled directory read by
`_simulate_compile`; `none` models a missing directory or file. -/
structure SourceTree where
  manifestXml : Option (List Nat)
  resFiles : Option (List SrcFile)
  assetFiles : Option (List SrcFile)
  libFiles : Option (List SrcFile)
  originalSize : Nat

/-- Python `s.endswith(suffix)` over the byte view of a string. -/
def endsWithStr (s suffix : String) : Bool :=
  let b := strBytes s
  let t := strBytes suffix
  t == b.drop (b.length - t.length)

/-- The image-extension test of `_add_resources_to_apk`
(`file.endswith(('.png', '.jpg', '.jpeg', '.webp', '.gif'))`). -/
def isImagePath (p : String) : Bool :=
  endsWithStr p ".png" || endsWithStr p ".jpg" || endsWithStr p ".jpeg" ||
  endsWithStr p ".webp" || endsWithStr p ".gif"

/-- One iteration of the resource loop of `_add_resources_to_apk`:
`some` is the entry written, `none` means the file was skipped with a
warning.  XML resources never read the input file — `_create_binary_xml`
ignores its path argument and returns a fixed 1024-byte blob — so they
are always written, readable or not. -/
def resFileStep (f : SrcFile) : Option (String × List Nat) :=
  if isImagePath f.path then
    (if f.readable then some (f.path, f.content) else none)
  else if endsWithStr f.path ".xml" then
    some (f.path, createBinaryXml)
  else if endsWithStr f.path ".9.png" then
    (if f.readable then some (f.path, f.content) else none)
  else
    (if f.readable then some (f.path, f.content) else none)

/-- `_add_resources_to_apk`: entries written, and the warned-about paths
of files that could not be processed. -/
def addResourcesToApk (files : List SrcFile) : List (String × List Nat) × List String :=
  (files.filterMap resFileStep,
   (files.filter (fun f => (resFileStep f).isNone)).map (fun f => f.path))

/-- The asset/lib walk loops of `_simulate_compile`: raw copy of each
readable file, a warning for each unreadable one. -/
def walkAdd (files : List SrcFile) : List (String × List Nat) × List String :=
  (files.filterMap (fun f => if f.readable then some (f.path, f.content) else none),
   (files.filter (fun f => ! f.readable)).map (fun f => f.path))

/-- The entries produced from the `res/` directory, if present. -/
def resPart (t : SourceTree) : List (String × List Nat) × List String :=
  match t.resFiles with
  | none => ([], [])
  | some fs => addResourcesToApk fs

/-- The entries produced from the `assets/` directory, if present. -/
def assetPart (t : SourceTree) : List (String × List Nat) × List String :=
  match t.assetFiles with
  | none => ([], [])
  | some fs => walkAdd fs

/-- The entries produced from the `lib/` directory, if present. -/
def libPart (t : SourceTree) : List (String × List Nat) × List String :=
  match t.libFiles with
  | none => ([], [])
  | some fs => walkAdd fs

/-- The binary manifest written as the first entry: both the
file-present branch (`_create_binary_manifest`, which discards its input
and returns the default) and the missing-file branch produce the default
binary manifest. -/
def manifestEntryData (t : SourceTree) : List Nat :=
  match t.manifestXml with
  | some _ => createBinaryManifestDefault
  | none => createBinaryManifestDefault

/-- `_simulate_compile`'s archive-entry sequence and warning list:
manifest first, then resources, assets, `classes.dex`,
`resources.arsc`, and lib files last. -/
def simulateCompile (t : SourceTree) : List (String × List Nat) × List String :=
  (("AndroidManifest.xml", manifestEntryData t) ::
     ((resPart t).1 ++ (assetPart t).1 ++
      [("classes.dex", createRealisticDex t.originalSize),
       ("resources.arsc", createResourcesArsc)] ++ (libPart t).1),
   (resPart t).2 ++ (assetPart t).2 ++ (libPart t).2)

/-! ## ZIP container framing and the padding step.

The code writes archives through Python's `zipfile` module, which is
outside this repository; its on-disk framing is modelled from the
spec's produced-interface clause — a standard ZIP container of local
file headers, a central directory and an end-of-central-directory
record, without ZIP64 — with the STORE method (the spec allows
STORE-or-DEFLATE for binary entries) and the DOS timestamp fields
taken from the wall clock at write time. -/

/-- CRC-32 bit loop: `k` shift-and-conditionally-xor rounds with the
reflected polynomial. -/
def crc32Bits : Nat → Nat → Nat
  | r, 0 => r
  | r, k + 1 => crc32Bits (if r % 2 = 1 then (r / 2) ^^^ 3988292384 else r / 2) k

/-- CRC-32 over a byte list, as stored in ZIP headers. -/
def crc32Go : List Nat → Nat → Nat
  | [], r => r
  | b :: l, r => crc32Go l (crc32Bits (r ^^^ b % 256) 8)

def crc32 (data : List Nat) : Nat := crc32Go data 4294967295 ^^^ 4294967295

/-- Modelled from the spec: a ZIP local file header followed by the
stored entry payload. -/
def zipLocalEntry (dosTime dosDate : Nat) (e : String × List Nat) : List Nat :=
  [80, 75, 3, 4] ++ le16 20 ++ le16 0 ++ le16 0 ++
  le16 (dosTime % 65536) ++ le16 (dosDate % 65536) ++
  le32 (crc32 e.2) ++ le32 e.2.length ++ le32 e.2.length ++
  le16 (strBytes e.1).length ++ le16 0 ++ strBytes e.1 ++ e.2

/-- Modelled from the spec: a ZIP central-directory record for one
entry whose local header starts at `offset`. -/
def zipCentralEntry (dosTime dosDate offset : Nat) (e : String × List Nat) : List Nat :=
  [80, 75, 1, 2] ++ le16 20 ++ le16 20 ++ le16 0 ++ le16 0 ++
  le16 (dosTime % 65536) ++ le16 (dosDate % 65536) ++
  le32 (crc32 e.2) ++ le32 e.2.length ++ le32 e.2.length ++
  le16 (strBytes e.1).length ++ le16 0 ++ le16 0 ++ le16 0 ++ le16 0 ++
  le32 0 ++ le32 offset ++ strBytes e.1

/-- The central directory: one record per entry, tracking the running
local-header offsets (30 header bytes plus name plus stored payload). -/
def zipCentralGo (dosTime dosDate : Nat) : Nat → List (String × List Nat) → List Nat
  | _, [] => []
  | offset, e :: r =>
      zipCentralEntry dosTime dosDate offset e ++
      zipCentralGo dosTime dosDate (offset + 30 + (strBytes e.1).length + e.2.length) r

/-- Modelled from the spec: the 22-byte end-of-central-directory
record. -/
def eocdRecord (n cdSize cdOffset : Nat) : List Nat :=
  [80, 75, 5, 6] ++ le16 0 ++ le16 0 ++ le16 n ++ le16 n ++
  le32 cdSize ++ le32 cdOffset ++ le16 0

/-- Modelled from the spec: the full ZIP byte stream — local sections,
central directory, then the end record. -/
def zipSerialize (entries : List (String × List Nat)) (dosTime dosDate : Nat) : List Nat :=
  let locals := entries.flatMap (zipLocalEntry dosTime dosDate)
  let central := zipCentralGo dosTime dosDate 0 entries
  locals ++ central ++ eocdRecord entries.length central.length locals.length

/-- The 8192-byte padding chunk of `_pad_apk_file`
(`b'PADDING_' * (8192 // 8)`). -/
def paddingChunk : List Nat := (List.replicate 1024 (strBytes "PADDING_")).flatten

/-- `_pad_apk_file`: append whole padding chunks, the last one truncated,
until the file reaches `targetSize`; a file already at or above the
target is left alone.  The writes land after the ZIP end record. -/
def padApkFile (file : List Nat) (targetSize : Nat) : List Nat :=
  if lenGo file 0 < targetSize then
    file ++ ((List.replicate ((targetSize - lenGo file 0) / 8192 + 1) paddingChunk).flatten.take
      (targetSize - lenGo file 0))
  else file

/-- The tail of `_simulate_compile`: serialize the entries, then pad the
file to `max(original_size // 3, 200000)` when it came out under 50000
bytes. -/
def assembleBytes (t : SourceTree) (dosTime dosDate : Nat) : List Nat :=
  let file := zipSerialize (simulateCompile t).1 dosTime dosDate
  if lenGo file 0 < 50000 then
    padApkFile file (max (t.originalSize / 3) 200000)
  else file

def eocdSig : List Nat := [80, 75, 5, 6]

/-- Occurrence of the end-record signature anywhere in a byte string. -/
def containsSig : List Nat → Bool
  | [] => false
  | a :: r => ((a :: r).take 4 == eocdSig) || containsSig r

/-- Modelled from the spec: opening an archive as a ZIP and reading its
central directory requires locating the end-of-central-directory
signature, which the reader scans for within the last `w` bytes of the
file (the reference reader uses `w = 65557`, the maximal end-record
size). -/
def zipReadable (w : Nat) (file : List Nat) : Bool :=
  containsSig (file.drop (file.length - w))

/-! ## Theorems -/

theorem nfNat_eq (f : Nat → Nat) (n : Nat) : nfNat f n = f n := by
  cases n <;> rfl

theorem lenGo_eq : ∀ (l : List Nat) (acc : Nat), lenGo l acc = l.length + acc := by
  have H : ∀ (n : Nat) (l : List Nat), l.length ≤ n →
      ∀ acc, lenGo l acc = l.length + acc := by
    intro n
    induction n with
    | zero =>
        intro l hl acc
        match l with
        | [] => simp [lenGo]
    | succ n ih =>
        intro l hl acc
        match l with
        | [] => simp [lenGo]
        | [a] => simp [lenGo, nfNat_eq]; omega
        | [a, b] => simp [lenGo, nfNat_eq]; omega
        | [a, b, c] => simp [lenGo, nfNat_eq]; omega
        | [a, b, c, d] => simp [lenGo, nfNat_eq]; omega
        | [a, b, c, d, e] => simp [lenGo, nfNat_eq]; omega
        | [a, b, c, d, e, f] => simp [lenGo, nfNat_eq]; omega
        | [a, b, c, d, e, f, g] => simp [lenGo, nfNat_eq]; omega
        | a :: b :: c :: d :: e :: f :: g :: h :: r =>
            have hr : r.length ≤ n := by simp at hl; omega
            rw [lenGo, nfNat_eq, ih r hr]; simp; omega
  intro l acc
  exact H l.length l (Nat.le_refl _) acc

theorem natBytesBE_length : ∀ (k n : Nat), (natBytesBE k n).length = k := by
  intro k
  induction k with
  | zero => intro n; rfl
  | succ k ih => intro n; simp [natBytesBE, ih]

theorem sha1_length (msg : List Nat) : (sha1 msg).length = 20 := by
  simp [sha1, natBytesBE_length]

theorem padToLen_eq (l : List Nat) (n : Nat) :
    padToLen l n = l ++ List.replicate (n - l.length) 0 := by
  simp [padToLen, lenGo_eq]

theorem padToLen_length (l : List Nat) (n : Nat) (h : l.length ≤ n) :
    (padToLen l n).length = n := by
  rw [padToLen_eq]
  simp [List.length_append, List.length_replicate]
  omega

theorem dexHeader_length (t : Nat) : (dexHeader t).length = 112 := by
  have h7 : (strBytes "dex\n039").length = 7 := rfl
  simp [dexHeader, List.length_append, h7, le32, List.length_replicate]

theorem dexTables_length : dexTables.length = 252 := by decide

theorem dexStringData_length : dexStringData.length = 164 := by decide

theorem dexMapList_length : dexMapList.length = 28 := by decide

theorem dexFileSize_ge (t : Nat) : 4096 ≤ dexFileSize t := Nat.le_max_left _ _

/-- Dropping past an initial segment of known length. -/
theorem dropPast (A B : List Nat) (k m r : Nat) (hA : A.length = k)
    (h : k + r = m) : (A ++ B).drop m = B.drop r := by
  subst hA
  rw [← h, List.drop_append]

theorem dexPre_length (t : Nat) : (dexPre t).length = dexFileSize t := by
  have hge := dexFileSize_ge t
  have h1 : (dexHeader t ++ dexTables).length = 364 := by
    simp [List.length_append, dexHeader_length, dexTables_length]
  have h2 : (padToLen (dexHeader t ++ dexTables) 364 ++ dexStringData).length = 528 := by
    simp [List.length_append, padToLen_length _ _ (le_of_eq h1), dexStringData_length]
  have h3 : (padToLen (padToLen (dexHeader t ++ dexTables) 364 ++ dexStringData)
      (dexFileSize t - 32) ++ dexMapList).length = dexFileSize t - 4 := by
    rw [List.length_append, padToLen_length _ _ (by omega), dexMapList_length]
    omega
  rw [dexPre, padToLen_length _ _ (by omega)]

/-- Structure of the patched DEX image: the 8-byte magic prefix, the
Adler-32 checksum field computed over the pre-signature bytes, the SHA-1
signature field over the final tail, then the unchanged tail. -/
theorem createRealisticDex_spec (t : Nat) :
    createRealisticDex t =
      (dexPre t).take 8 ++ le32 (adler32 ((dexPre t).drop 12)) ++
      sha1 ((dexPre t).drop 32) ++ (dexPre t).drop 32 := by
  have hlen := dexPre_length t
  have hge := dexFileSize_ge t
  have h8 : ((dexPre t).take 8).length = 8 := by
    simp [List.length_take]; omega
  have hck : (le32 (adler32 ((dexPre t).drop 12))).length = 4 := rfl
  have hAfter : dexAfterCk t =
      (dexPre t).take 8 ++ le32 (adler32 ((dexPre t).drop 12)) ++ (dexPre t).drop 12 := by
    rfl
  have hl : (((dexPre t).take 8 ++ le32 (adler32 ((dexPre t).drop 12)))).length = 12 := by
    simp [List.length_append, h8, hck]
  have hdrop32 : (dexAfterCk t).drop 32 = (dexPre t).drop 32 := by
    rw [hAfter, dropPast _ _ 12 32 20 hl rfl, List.drop_drop]
  have htake12 : (dexAfterCk t).take 12 =
      (dexPre t).take 8 ++ le32 (adler32 ((dexPre t).drop 12)) := by
    rw [hAfter]
    exact List.take_left' hl
  have hsig : (sha1 ((dexAfterCk t).drop 32)).length = 20 := sha1_length _
  have hfinal : setSlice (dexAfterCk t) 12 (sha1 ((dexAfterCk t).drop 32)) =
      (dexPre t).take 8 ++ le32 (adler32 ((dexPre t).drop 12)) ++
      sha1 ((dexPre t).drop 32) ++ (dexPre t).drop 32 := by
    rw [setSlice, hsig, show (12 : Nat) + 20 = 32 from rfl, htake12, hdrop32]
  have hflen : (setSlice (dexAfterCk t) 12 (sha1 ((dexAfterCk t).drop 32))).length =
      dexFileSize t := by
    rw [hfinal]
    simp [List.length_append, h8, hck, sha1_length, List.length_drop]
    omega
  rw [createRealisticDex]
  rw [show dexFileSize t = (setSlice (dexAfterCk t) 12 (sha1 ((dexAfterCk t).drop 32))).length
      from hflen.symm]
  rw [List.take_length, hfinal]

/-- Slice view of the patched DEX image. -/
theorem createRealisticDex_slices (t : Nat) :
    ((createRealisticDex t).drop 8).take 4 = le32 (adler32 ((dexPre t).drop 12)) ∧
    ((createRealisticDex t).drop 12).take 20 = sha1 ((dexPre t).drop 32) ∧
    (createRealisticDex t).drop 32 = (dexPre t).drop 32 := by
  have hlen := dexPre_length t
  have hge := dexFileSize_ge t
  have h8 : ((dexPre t).take 8).length = 8 := by
    simp [List.length_take]; omega
  have hck : (le32 (adler32 ((dexPre t).drop 12))).length = 4 := rfl
  have hsig : (sha1 ((dexPre t).drop 32)).length = 20 := sha1_length _
  rw [createRealisticDex_spec t]
  simp only [List.append_assoc]
  refine ⟨?_, ?_, ?_⟩
  · rw [List.drop_left' h8, List.take_left' hck]
  · rw [show (12 : Nat) = 8 + 4 from rfl, ← List.drop_drop,
      List.drop_left' h8, List.drop_left' hck, List.take_left' hsig]
  · rw [show (32 : Nat) = 12 + 20 from rfl, ← List.drop_drop,
      show (12 : Nat) = 8 + 4 from rfl, ← List.drop_drop,
      List.drop_left' h8, List.drop_left' hck, List.drop_left' hsig]

/-- C2 (counterexample): for `target_size = 0` (file size 4096), the
checksum field stored at offset 8 of the emitted `classes.dex` does NOT
equal Adler-32 over the final output bytes `[12, fileEnd)` — the code
computes the checksum while the signature field is still zeroed and then
overwrites bytes `[12, 32)` with the SHA-1, so the stored checksum fails
to cover the final content. -/
theorem c2_checksum_counterexample :
    ¬ (((createRealisticDex 0).drop 8).take 4 =
        le32 (adler32 ((createRealisticDex 0).drop 12))) := by
  intro h
  rw [(createRealisticDex_slices 0).1] at h
  exact absurd h (by decide)

/-- C2 (amended): for every `target_size`, the signature field at offset
12 of the emitted `classes.dex` equals SHA-1 over the final output bytes
`[32, fileEnd)`, and the checksum field at offset 8 equals Adler-32 over
bytes `[12, fileEnd)` of the image as it stood before the signature was
patched in (the signature field zeroed) — not over the final bytes. -/
theorem c2_dex_digest_fields (t : Nat) :
    ((createRealisticDex t).drop 12).take 20 = sha1 ((createRealisticDex t).drop 32) ∧
    ((createRealisticDex t).drop 8).take 4 = le32 (adler32 ((dexPre t).drop 12)) := by
  obtain ⟨h1, h2, h3⟩ := createRealisticDex_slices t
  exact ⟨by rw [h2, h3], h1⟩

theorem createResourcesArsc_length : createResourcesArsc.length = 4096 := by
  have h : lenGo createResourcesArsc 0 = 4096 := by decide
  have h2 := lenGo_eq createResourcesArsc 0
  omega

theorem createBinaryManifestDefault_length :
    createBinaryManifestDefault.length = 2048 := by
  have h : lenGo createBinaryManifestDefault 0 = 2048 := by decide
  have h2 := lenGo_eq createBinaryManifestDefault 0
  omega

/-- C4 (counterexample): two declared chunk-size fields named by the
claim differ from the emitted byte lengths.  The AXML string-pool chunk
(at offset 8 of the default binary manifest, size field at offset 12)
declares 324 bytes but 516 are emitted, and the ARSC table header's
total-size field holds 592 while the emitted `resources.arsc` payload is
4096 bytes (the zero-padding appended after the size was patched is not
covered). -/
theorem c4_size_counterexample :
    ¬ ((createBinaryManifestDefault.drop 12).take 4 = le32 axmlStringPool.length) ∧
    ¬ ((createResourcesArsc.drop 4).take 4 = le32 createResourcesArsc.length) := by
  constructor
  · have h : axmlStringPool.length = 516 := by decide
    rw [h]; decide
  · rw [createResourcesArsc_length]; decide

/-- C4 (amended): the backpatched size fields are accurate — the AXML
file header's total size, the ARSC string-pool size and the ARSC package
size each equal the corresponding emitted chunk length — and the literal
resource-map chunk size is accurate, but the hard-coded fields are not:
the AXML string pool declares 324 of 516 emitted bytes, the `<manifest>`
element declares 228 of 108, and the ARSC total-size field holds the
pre-padding length 592 while the full payload is 4096 bytes. -/
theorem c4_chunk_size_fields :
    (createBinaryManifestDefault.drop 4).take 4 =
      le32 createBinaryManifestDefault.length ∧
    (createBinaryManifestDefault.drop 12).take 4 = le32 324 ∧
    axmlStringPool.length = 516 ∧
    (axmlResourceMap.drop 4).take 4 = le32 axmlResourceMap.length ∧
    (axmlManifestElem.drop 4).take 4 = le32 228 ∧
    axmlManifestElem.length = 108 ∧
    (createResourcesArsc.drop 16).take 4 = le32 arscStringPoolChunk.length ∧
    (createResourcesArsc.drop 172).take 4 = le32 arscPackageChunk.length ∧
    (createResourcesArsc.drop 4).take 4 = le32 592 ∧
    createResourcesArsc.length = 4096 := by
  refine ⟨?_, by decide, by decide, by decide, by decide, by decide, ?_, ?_, by decide,
    createResourcesArsc_length⟩
  · rw [createBinaryManifestDefault_length]; decide
  · have h : arscStringPoolChunk.length = 156 := by decide
    rw [h]; decide
  · have h : arscPackageChunk.length = 424 := by decide
    rw [h]; decide

theorem headNot13_append {x : List Nat} (y : List Nat) (hx : 13 ∉ x)
    (hne : x ≠ []) : headNot13 (x ++ y) := by
  match x, hne with
  | a :: x', _ =>
      show a ≠ 13
      intro h
      exact hx (h ▸ List.mem_cons_self a x')

theorem b64Char_ge (n : Nat) : 43 ≤ b64Char n := by
  unfold b64Char
  split_ifs <;> omega

theorem noCR_b64 : ∀ l : List Nat, 13 ∉ b64Encode l := by
  have H : ∀ (n : Nat) (l : List Nat), l.length ≤ n → 13 ∉ b64Encode l := by
    intro n
    induction n with
    | zero =>
        intro l hl
        match l with
        | [] => simp [b64Encode]
    | succ n ih =>
        intro l hl
        match l with
        | [] => simp [b64Encode]
        | [a] =>
            intro hmem
            simp [b64Encode, List.mem_cons] at hmem
            rcases hmem with h | h
            · exact absurd h.symm (by have := b64Char_ge (a / 4); omega)
            · exact absurd h.symm (by have := b64Char_ge (a % 4 * 16); omega)
        | [a, b] =>
            intro hmem
            simp [b64Encode, List.mem_cons] at hmem
            rcases hmem with h | h | h
            · exact absurd h.symm (by have := b64Char_ge ((a * 256 + b) / 1024); omega)
            · exact absurd h.symm (by have := b64Char_ge ((a * 256 + b) / 16 % 64); omega)
            · exact absurd h.symm (by have := b64Char_ge ((a * 256 + b) % 16 * 4); omega)
        | a :: b :: c :: rest =>
            intro hmem
            simp [b64Encode, List.mem_cons] at hmem
            rcases hmem with h | h | h | h | h
            · exact absurd h.symm (by have := b64Char_ge (((a * 256 + b) * 256 + c) / 262144); omega)
            · exact absurd h.symm (by have := b64Char_ge (((a * 256 + b) * 256 + c) / 4096 % 64); omega)
            · exact absurd h.symm (by have := b64Char_ge (((a * 256 + b) * 256 + c) / 64 % 64); omega)
            · exact absurd h.symm (by have := b64Char_ge (((a * 256 + b) * 256 + c) % 64); omega)
            · exact ih rest (by simp at hl; omega) h
  intro l
  exact H l.length l (Nat.le_refl _)

theorem mdCons_mdApp (a : Nat) (p : List Nat) (L : List (List Nat)) :
    mdCons a (mdApp p L) = mdApp (a :: p) L := by
  cases L <;> rfl

theorem mdCons_crlf (L : List (List Nat)) :
    mdCons 13 (mdCons 10 L) = mdApp [13, 10] L := by
  cases L <;> rfl

theorem splitSections_cons (a : Nat) (r : List Nat) (h : a ≠ 13) :
    splitSections (a :: r) = mdCons a (splitSections r) :=
  splitSections.eq_3 a r (fun _ h13 _ => h h13)

theorem splitSections_sep (r : List Nat) :
    splitSections (13 :: 10 :: 13 :: 10 :: r) = [] :: splitSections r :=
  splitSections.eq_2 r

theorem splitSections_crlf (r : List Nat) (h : headNot13 r) :
    splitSections (13 :: 10 :: r) = mdCons 13 (mdCons 10 (splitSections r)) := by
  have e1 : splitSections (13 :: 10 :: r) = mdCons 13 (splitSections (10 :: r)) :=
    splitSections.eq_3 13 (10 :: r) (fun r₁ _ heq => by
      injection heq with _ h2
      rw [h2] at h
      exact h rfl)
  rw [e1, splitSections_cons 10 r (by omega)]

theorem splitSections_peel_crlf : ∀ (x r : List Nat), 13 ∉ x → headNot13 r →
    splitSections (x ++ 13 :: 10 :: r) = mdApp (x ++ [13, 10]) (splitSections r) := by
  intro x
  induction x with
  | nil =>
      intro r hx hr
      rw [List.nil_append, splitSections_crlf r hr, mdCons_crlf]
      simp
  | cons a x ih =>
      intro r hx hr
      have ha : a ≠ 13 := by intro h; exact hx (h ▸ List.mem_cons_self a x)
      rw [List.cons_append, splitSections_cons a _ ha,
        ih r (fun hb => hx (List.mem_cons_of_mem _ hb)) hr, mdCons_mdApp]
      rfl

theorem splitSections_peel_sep : ∀ (x r : List Nat), 13 ∉ x →
    splitSections (x ++ 13 :: 10 :: 13 :: 10 :: r) = x :: splitSections r := by
  intro x
  induction x with
  | nil => intro r hx; rw [List.nil_append, splitSections_sep]
  | cons a x ih =>
      intro r hx
      have ha : a ≠ 13 := by intro h; exact hx (h ▸ List.mem_cons_self a x)
      rw [List.cons_append, splitSections_cons a _ ha,
        ih r (fun hb => hx (List.mem_cons_of_mem _ hb))]
      rfl

theorem splitLines_cons (a : Nat) (r : List Nat) (h : a ≠ 13) :
    splitLines (a :: r) = mdCons a (splitLines r) :=
  splitLines.eq_3 a r (fun _ h13 _ => h h13)

theorem splitLines_peel : ∀ (x r : List Nat), 13 ∉ x →
    splitLines (x ++ 13 :: 10 :: r) = x :: splitLines r := by
  intro x
  induction x with
  | nil => intro r hx; rw [List.nil_append]; simp [splitLines]
  | cons a x ih =>
      intro r hx
      have ha : a ≠ 13 := by intro h; exact hx (h ▸ List.mem_cons_self a x)
      rw [List.cons_append, splitLines_cons a _ ha,
        ih r (fun hb => hx (List.mem_cons_of_mem _ hb))]
      rfl

theorem joinCRLF_cons_cons (x y : List Nat) (r : List (List Nat)) :
    joinCRLF (x :: y :: r) = x ++ 13 :: 10 :: joinCRLF (y :: r) := rfl

theorem joinCRLF_append : ∀ (A B : List (List Nat)), A ≠ [] → B ≠ [] →
    joinCRLF (A ++ B) = joinCRLF A ++ 13 :: 10 :: joinCRLF B := by
  intro A
  induction A with
  | nil => intro B h; exact absurd rfl h
  | cons x A ih =>
      intro B _ hB
      match A with
      | [] =>
          match B, hB with
          | b :: bs, _ => rfl
      | y :: A' =>
          rw [show (x :: y :: A') ++ B = x :: y :: (A' ++ B) from rfl,
            joinCRLF_cons_cons x y (A' ++ B),
            show y :: (A' ++ B) = (y :: A') ++ B from rfl,
            ih B (by simp) hB, joinCRLF_cons_cons x y A']
          simp [List.append_assoc]

theorem strBytes_append (a b : String) :
    strBytes (a ++ b) = strBytes a ++ strBytes b := by
  simp [strBytes]

theorem manifest_eq_nil (archive : List (String × List Nat)) (date : String)
    (h : nonMetaEntries archive = []) :
    createEnhancedManifestMf archive date = mfHeaderPiece date ++ [13, 10] := by
  simp [createEnhancedManifestMf, h, mfHeaderLines, mfHeaderPiece, joinCRLF,
    List.append_assoc]

theorem flatMap_sections_ne_nil (e : String × List Nat)
    (r : List (String × List Nat)) :
    (e :: r).flatMap (fun e => mfSectionLines e ++ [[]]) ≠ [] := by
  simp [mfSectionLines]

theorem joinCRLF_flatMap_sections :
    ∀ es : List (String × List Nat), es ≠ [] →
      joinCRLF (es.flatMap (fun e => mfSectionLines e ++ [[]])) = mfSecsBytes es := by
  intro es
  induction es with
  | nil => intro h; exact absurd rfl h
  | cons e r ih =>
      intro _
      match r with
      | [] =>
          simp [mfSectionLines, mfSecsBytes, mfSectionPiece, joinCRLF,
            List.append_assoc]
      | e2 :: r' =>
          rw [show (e :: e2 :: r').flatMap (fun e => mfSectionLines e ++ [[]]) =
              (mfSectionLines e ++ [[]]) ++
                (e2 :: r').flatMap (fun e => mfSectionLines e ++ [[]]) by simp]
          rw [joinCRLF_append _ _ (by simp [mfSectionLines])
            (flatMap_sections_ne_nil e2 r'), ih (by simp)]
          simp [mfSectionLines, mfSecsBytes, mfSectionPiece, joinCRLF,
            List.append_assoc]

theorem manifest_eq_cons (archive : List (String × List Nat)) (date : String)
    (hne : nonMetaEntries archive ≠ []) :
    createEnhancedManifestMf archive date =
      mfHeaderPiece date ++ 13 :: 10 :: 13 :: 10 :: mfSecsBytes (nonMetaEntries archive) := by
  match hes : nonMetaEntries archive, hne with
  | e :: r, _ =>
      rw [createEnhancedManifestMf, hes]
      rw [show mfHeaderLines date ++ [[]] ++
          (e :: r).flatMap (fun e => mfSectionLines e ++ [[]]) =
          (mfHeaderLines date ++ [[]]) ++
          (e :: r).flatMap (fun e => mfSectionLines e ++ [[]]) by simp]
      rw [joinCRLF_append _ _ (by simp [mfHeaderLines]) (flatMap_sections_ne_nil e r),
        joinCRLF_flatMap_sections (e :: r) (by simp)]
      simp [mfHeaderLines, mfHeaderPiece, joinCRLF, List.append_assoc]

theorem noCR_app {x y : List Nat} (hx : 13 ∉ x) (hy : 13 ∉ y) : 13 ∉ x ++ y := by
  simp [List.mem_append]
  exact ⟨hx, hy⟩

theorem headNot13_app2 (A B Y : List Nat) (hA13 : 13 ∉ A) (hA : A ≠ []) :
    headNot13 ((A ++ B) ++ Y) := by
  match A, hA with
  | a :: A', _ =>
      show a ≠ 13
      intro h
      exact hA13 (h ▸ List.mem_cons_self a A')

theorem splitSections_peel_crlf2 (x y r : List Nat) (hx : 13 ∉ x) (hy : 13 ∉ y)
    (hr : headNot13 r) :
    splitSections (x ++ (y ++ 13 :: 10 :: r)) =
      mdApp (x ++ (y ++ [13, 10])) (splitSections r) := by
  rw [← List.append_assoc, splitSections_peel_crlf (x ++ y) r (noCR_app hx hy) hr,
    List.append_assoc]

theorem splitSections_peel_sep2 (x y r : List Nat) (hx : 13 ∉ x) (hy : 13 ∉ y) :
    splitSections (x ++ (y ++ 13 :: 10 :: 13 :: 10 :: r)) =
      (x ++ y) :: splitSections r := by
  rw [← List.append_assoc, splitSections_peel_sep (x ++ y) r (noCR_app hx hy)]

theorem splitLines_peel2 (x y r : List Nat) (hx : 13 ∉ x) (hy : 13 ∉ y) :
    splitLines (x ++ (y ++ 13 :: 10 :: r)) = (x ++ y) :: splitLines r := by
  rw [← List.append_assoc, splitLines_peel (x ++ y) r (noCR_app hx hy)]

theorem mdApp_mdApp (p q : List Nat) (L : List (List Nat)) :
    mdApp p (mdApp q L) = mdApp (p ++ q) L := by
  cases L <;> simp [mdApp, List.append_assoc]

theorem mdApp_single (p : List Nat) : mdApp p [[]] = [p] := by
  simp [mdApp]

theorem mdApp_cons (p x : List Nat) (xs : List (List Nat)) :
    mdApp p (x :: xs) = (p ++ x) :: xs := rfl

theorem sectionNonBlank_pieceOf (e : String × List Nat) (X : List Nat) :
    sectionNonBlank (pieceOf e X) = true := by
  simp only [pieceOf, sectionNonBlank, List.any_append]
  have h : (strBytes "Name: ").any (fun b => ! pySpace b) = true := by decide
  simp [h]

theorem findNameLine_pieceOf (e : String × List Nat) (X : List Nat)
    (hname : 13 ∉ strBytes e.1) :
    findNameLine (pieceOf e X) = some (strBytes e.1) := by
  rw [findNameLine, pieceOf, splitLines_peel2 _ _ _ (by decide) hname]
  have h6 : (strBytes "Name: ").length = 6 := rfl
  have htake : (strBytes "Name: " ++ strBytes e.1).take 6 = strBytes "Name: " :=
    List.take_left' h6
  have hpred : ((strBytes "Name: " ++ strBytes e.1).take 6 == strBytes "Name: ") = true := by
    rw [htake]; simp
  have hfind : List.find? (fun l => List.take 6 l == strBytes "Name: ")
      ((strBytes "Name: " ++ strBytes e.1) :: splitLines X) =
      some (strBytes "Name: " ++ strBytes e.1) :=
    List.find?_cons_of_pos _ hpred
  rw [hfind]
  simp [List.drop_left' h6]

theorem certSfEntries_eq_filterMap (m : List Nat) :
    certSfEntries m = ((splitSections m).drop 1).filterMap certPieceEntry := rfl

theorem certPieceEntry_pieceOf (e : String × List Nat) (X : List Nat)
    (hname : 13 ∉ strBytes e.1) :
    certPieceEntry (pieceOf e X) =
      some (strBytes e.1, b64Encode (sha1 (pieceOf e X ++ [13, 10, 13, 10]))) := by
  simp [certPieceEntry, sectionNonBlank_pieceOf, findNameLine_pieceOf e X hname]

theorem mfSectionPiece_as_pieceOf (e : String × List Nat) :
    mfSectionPiece e =
      pieceOf e ((strBytes "SHA1-Digest: " ++ b64Encode (sha1 e.2)) ++
        13 :: 10 :: (strBytes "SHA-256-Digest: " ++ b64Encode (sha256 e.2))) := by
  simp [mfSectionPiece, mfSectionLines, joinCRLF, pieceOf, List.append_assoc]

theorem mfSectionPieceCRLF_as_pieceOf (e : String × List Nat) :
    mfSectionPiece e ++ [13, 10] =
      pieceOf e ((strBytes "SHA1-Digest: " ++ b64Encode (sha1 e.2)) ++
        13 :: 10 :: ((strBytes "SHA-256-Digest: " ++ b64Encode (sha256 e.2)) ++ [13, 10])) := by
  simp [mfSectionPiece, mfSectionLines, joinCRLF, pieceOf, List.append_assoc]

theorem splitSections_mfSecsBytes :
    ∀ es : List (String × List Nat), es ≠ [] →
      (∀ e ∈ es, 13 ∉ strBytes e.1) →
      splitSections (mfSecsBytes es) = mfPieces es := by
  intro es
  induction es with
  | nil => intro h; exact absurd rfl h
  | cons e r ih =>
      intro _ hn
      have hname : 13 ∉ strBytes e.1 := hn e (List.mem_cons_self _ _)
      have hNm : (13 : Nat) ∉ strBytes "Name: " := by decide
      have hA : (13 : Nat) ∉ strBytes "SHA1-Digest: " := by decide
      have hC : (13 : Nat) ∉ strBytes "SHA-256-Digest: " := by decide
      match r with
      | [] =>
          rw [show mfSecsBytes [e] = mfSectionPiece e ++ [13, 10] from rfl,
            mfSectionPieceCRLF_as_pieceOf, pieceOf,
            splitSections_peel_crlf2 (strBytes "Name: ") (strBytes e.1) _ hNm hname
              (headNot13_app2 (strBytes "SHA1-Digest: ") _ _ hA (by decide)),
            List.append_assoc (strBytes "SHA1-Digest: ") (b64Encode (sha1 e.2)),
            splitSections_peel_crlf2 (strBytes "SHA1-Digest: ") (b64Encode (sha1 e.2)) _
              hA (noCR_b64 _)
              (headNot13_app2 (strBytes "SHA-256-Digest: ") _ _ hC (by decide)),
            List.append_assoc (strBytes "SHA-256-Digest: ") (b64Encode (sha256 e.2)),
            splitSections_peel_crlf2 (strBytes "SHA-256-Digest: ") (b64Encode (sha256 e.2)) []
              hC (noCR_b64 _) trivial,
            show splitSections [] = [[]] from rfl,
            mdApp_single, mdApp_cons, mdApp_cons]
          rw [show mfPieces [e] = [mfSectionPiece e ++ [13, 10]] from rfl,
            mfSectionPieceCRLF_as_pieceOf, pieceOf]
          simp [List.append_assoc]
      | e2 :: r' =>
          rw [show mfSecsBytes (e :: e2 :: r') =
              mfSectionPiece e ++ 13 :: 10 :: 13 :: 10 :: mfSecsBytes (e2 :: r') from rfl,
            mfSectionPiece_as_pieceOf, pieceOf]
          rw [show (strBytes "Name: " ++
              (strBytes e.1 ++ 13 :: 10 ::
                ((strBytes "SHA1-Digest: " ++ b64Encode (sha1 e.2)) ++
                  13 :: 10 :: (strBytes "SHA-256-Digest: " ++ b64Encode (sha256 e.2))))) ++
              13 :: 10 :: 13 :: 10 :: mfSecsBytes (e2 :: r') =
              strBytes "Name: " ++
              (strBytes e.1 ++ 13 :: 10 ::
                (strBytes "SHA1-Digest: " ++
                  (b64Encode (sha1 e.2) ++
                    13 :: 10 :: (strBytes "SHA-256-Digest: " ++
                      (b64Encode (sha256 e.2) ++
                        13 :: 10 :: 13 :: 10 :: mfSecsBytes (e2 :: r')))))) by
              simp [List.append_assoc]]
          rw [splitSections_peel_crlf2 (strBytes "Name: ") (strBytes e.1) _ hNm hname
              (headNot13_append _ hA (by decide)),
            splitSections_peel_crlf2 (strBytes "SHA1-Digest: ") (b64Encode (sha1 e.2)) _
              hA (noCR_b64 _) (headNot13_append _ hC (by decide)),
            splitSections_peel_sep2 (strBytes "SHA-256-Digest: ") (b64Encode (sha256 e.2)) _
              hC (noCR_b64 _),
            ih (by simp) (fun x hx => hn x (List.mem_cons_of_mem _ hx)),
            mdApp_cons, mdApp_cons]
          rw [show mfPieces (e :: e2 :: r') =
              mfSectionPiece e :: mfPieces (e2 :: r') from rfl,
            mfSectionPiece_as_pieceOf, pieceOf]
          simp [List.append_assoc]

theorem splitSections_manifest (archive : List (String × List Nat)) (date : String)
    (hdate : 13 ∉ strBytes date)
    (hne : nonMetaEntries archive ≠ [])
    (hnames : ∀ e ∈ nonMetaEntries archive, 13 ∉ strBytes e.1) :
    splitSections (createEnhancedManifestMf archive date) =
      mfHeaderPiece date :: mfPieces (nonMetaEntries archive) := by
  have h1 : (13 : Nat) ∉ strBytes "Manifest-Version: 1.0" := by decide
  have h2 : (13 : Nat) ∉ strBytes "Built-By: APK Editor Pro" := by decide
  have h3 : (13 : Nat) ∉ strBytes "Created-By: APK Editor Enhanced System" := by decide
  have hBD : (13 : Nat) ∉ strBytes "Build-Date: " := by decide
  rw [manifest_eq_cons archive date hne]
  rw [show mfHeaderPiece date ++ 13 :: 10 :: 13 :: 10 :: mfSecsBytes (nonMetaEntries archive) =
      strBytes "Manifest-Version: 1.0" ++ 13 :: 10 ::
        (strBytes "Built-By: APK Editor Pro" ++ 13 :: 10 ::
          (strBytes "Created-By: APK Editor Enhanced System" ++ 13 :: 10 ::
            (strBytes "Build-Date: " ++ (strBytes date ++
              13 :: 10 :: 13 :: 10 :: mfSecsBytes (nonMetaEntries archive))))) by
    simp [mfHeaderPiece, mfHeaderLines, joinCRLF, List.append_assoc]]
  rw [splitSections_peel_crlf (strBytes "Manifest-Version: 1.0") _ h1
      (headNot13_append _ h2 (by decide)),
    splitSections_peel_crlf (strBytes "Built-By: APK Editor Pro") _ h2
      (headNot13_append _ h3 (by decide)),
    splitSections_peel_crlf (strBytes "Created-By: APK Editor Enhanced System") _ h3
      (headNot13_append _ hBD (by decide)),
    splitSections_peel_sep2 (strBytes "Build-Date: ") (strBytes date) _ hBD hdate,
    splitSections_mfSecsBytes (nonMetaEntries archive) hne hnames,
    mdApp_cons, mdApp_cons, mdApp_cons]
  simp [mfHeaderPiece, mfHeaderLines, joinCRLF, List.append_assoc]

theorem filterMap_mfPieces :
    ∀ es : List (String × List Nat), (∀ e ∈ es, 13 ∉ strBytes e.1) →
      (mfPieces es).filterMap certPieceEntry = certExpected es := by
  intro es
  induction es with
  | nil => intro _; rfl
  | cons e r ih =>
      intro hn
      have hname : 13 ∉ strBytes e.1 := hn e (List.mem_cons_self _ _)
      match r with
      | [] =>
          have hp := certPieceEntry_pieceOf e
            ((strBytes "SHA1-Digest: " ++ b64Encode (sha1 e.2)) ++
              13 :: 10 :: ((strBytes "SHA-256-Digest: " ++ b64Encode (sha256 e.2)) ++
                [13, 10])) hname
          rw [← mfSectionPieceCRLF_as_pieceOf] at hp
          rw [show mfPieces [e] = [mfSectionPiece e ++ [13, 10]] from rfl,
            show certExpected [e] =
              [(strBytes e.1,
                b64Encode (sha1 (mfSectionWithTerminator e ++ [13, 10])))] from rfl]
          simp [List.filterMap_cons, hp, mfSectionWithTerminator, List.append_assoc]
      | e2 :: r' =>
          have hp := certPieceEntry_pieceOf e
            ((strBytes "SHA1-Digest: " ++ b64Encode (sha1 e.2)) ++
              13 :: 10 :: (strBytes "SHA-256-Digest: " ++ b64Encode (sha256 e.2))) hname
          rw [← mfSectionPiece_as_pieceOf] at hp
          rw [show mfPieces (e :: e2 :: r') =
              mfSectionPiece e :: mfPieces (e2 :: r') from rfl,
            show certExpected (e :: e2 :: r') =
              (strBytes e.1, b64Encode (sha1 (mfSectionWithTerminator e))) ::
                certExpected (e2 :: r') from rfl]
          simp [List.filterMap_cons, hp, mfSectionWithTerminator,
            ih (fun x hx => hn x (List.mem_cons_of_mem _ hx)), List.append_assoc]

theorem certSfEntries_manifest (archive : List (String × List Nat)) (date : String)
    (hdate : 13 ∉ strBytes date)
    (hne : nonMetaEntries archive ≠ [])
    (hnames : ∀ e ∈ nonMetaEntries archive, 13 ∉ strBytes e.1) :
    certSfEntries (createEnhancedManifestMf archive date) =
      certExpected (nonMetaEntries archive) := by
  rw [certSfEntries_eq_filterMap,
    splitSections_manifest archive date hdate hne hnames]
  rw [show (mfHeaderPiece date :: mfPieces (nonMetaEntries archive)).drop 1 =
      mfPieces (nonMetaEntries archive) from rfl]
  exact filterMap_mfPieces (nonMetaEntries archive) hnames

theorem certSf_line2 (manifest : List Nat) (sigDate : String) :
    ∃ rest, splitLines (createEnhancedCertSf manifest sigDate) =
      strBytes "Signature-Version: 1.0" ::
        (strBytes "SHA1-Digest-Manifest: " ++ b64Encode (sha1 manifest)) :: rest := by
  have h0 : (13 : Nat) ∉ strBytes "Signature-Version: 1.0" := by decide
  have h1 : 13 ∉ strBytes "SHA1-Digest-Manifest: " ++ b64Encode (sha1 manifest) :=
    noCR_app (by decide) (noCR_b64 _)
  refine ⟨splitLines (joinCRLF
    ([strBytes "SHA1-Digest-Manifest-Main-Attributes: " ++
        b64Encode (sha1 (certSfMainAttrs manifest)),
      strBytes "Created-By: APK Editor Enhanced",
      strBytes "Signature-Date: " ++ strBytes sigDate,
      []] ++
     (certSfEntries manifest).flatMap (fun p =>
       [strBytes "Name: " ++ p.1, strBytes "SHA1-Digest: " ++ p.2, []]))), ?_⟩
  rw [show createEnhancedCertSf manifest sigDate =
      strBytes "Signature-Version: 1.0" ++ 13 :: 10 ::
        ((strBytes "SHA1-Digest-Manifest: " ++ b64Encode (sha1 manifest)) ++ 13 :: 10 ::
          joinCRLF
            ([strBytes "SHA1-Digest-Manifest-Main-Attributes: " ++
                b64Encode (sha1 (certSfMainAttrs manifest)),
              strBytes "Created-By: APK Editor Enhanced",
              strBytes "Signature-Date: " ++ strBytes sigDate,
              []] ++
             (certSfEntries manifest).flatMap (fun p =>
               [strBytes "Name: " ++ p.1, strBytes "SHA1-Digest: " ++ p.2, []]))) from rfl,
    splitLines_peel _ _ h0, splitLines_peel _ _ h1]

/-- C1: for every signed archive whose build date and entry names are free
of carriage returns and which has at least one non-META-INF entry, the
output stores MANIFEST.MF and a CERT.SF whose second line carries the
base64 SHA-1 of the stored manifest bytes (this half of the claim holds),
and the per-entry CERT.SF digests equal `certExpected`: SHA-1 of the
section with its blank-line terminator for every section except the last,
whose digest covers one extra CRLF beyond the terminator — the corrected
form of the claim's per-section half. -/
theorem c1_cert_sf_digest_chain (input : List (String × List Nat))
    (buildDate sigDate : String) (rsaTs : Nat)
    (hdate : 13 ∉ strBytes buildDate)
    (hne : nonMetaEntries input ≠ [])
    (hnames : ∀ e ∈ nonMetaEntries input, 13 ∉ strBytes e.1) :
    ("META-INF/MANIFEST.MF", createEnhancedManifestMf input buildDate) ∈
      createRealisticSignedApk input buildDate sigDate rsaTs ∧
    ("META-INF/CERT.SF",
      createEnhancedCertSf (createEnhancedManifestMf input buildDate) sigDate) ∈
      createRealisticSignedApk input buildDate sigDate rsaTs ∧
    (∃ rest,
      splitLines (createEnhancedCertSf (createEnhancedManifestMf input buildDate) sigDate) =
        strBytes "Signature-Version: 1.0" ::
          (strBytes "SHA1-Digest-Manifest: " ++
            b64Encode (sha1 (createEnhancedManifestMf input buildDate))) :: rest) ∧
    certSfEntries (createEnhancedManifestMf input buildDate) =
      certExpected (nonMetaEntries input) := by
  refine ⟨?_, ?_, certSf_line2 _ _,
    certSfEntries_manifest input buildDate hdate hne hnames⟩
  · simp [createRealisticSignedApk]
  · simp [createRealisticSignedApk]

theorem c1_cert_sf_digest_chain_witness :
    nonMetaEntries [("classes.dex", [0])] ≠ [] ∧
    certSfEntries (createEnhancedManifestMf [("classes.dex", [0])] "2024-01-01") =
      certExpected (nonMetaEntries [("classes.dex", [0])]) :=
  ⟨by decide,
   (c1_cert_sf_digest_chain [("classes.dex", [0])] "2024-01-01" "2024-01-01" 0
     (by decide) (by decide) (by decide)).2.2.2⟩

/-- C1 counterexample: for the one-entry archive `[classes.dex ↦ 0x00]`
the single CERT.SF digest is SHA-1 of the manifest section plus
terminator plus one extra CRLF, not SHA-1 of the section with its
terminator as the claim requires. -/
theorem c1_last_section_counterexample :
    (certSfEntries (createEnhancedManifestMf [("classes.dex", [0])] "2024-01-01")).map
        Prod.snd =
      [b64Encode (sha1 (mfSectionWithTerminator ("classes.dex", [0]) ++ [13, 10]))] ∧
    ¬ (certSfEntries (createEnhancedManifestMf [("classes.dex", [0])] "2024-01-01")).map
        Prod.snd =
      [b64Encode (sha1 (mfSectionWithTerminator ("classes.dex", [0])))] := by
  constructor <;> decide

theorem splitLines_noCR : ∀ x : List Nat, 13 ∉ x → splitLines x = [x] := by
  intro x
  induction x with
  | nil => intro _; rfl
  | cons a r ih =>
      intro h
      have ha : a ≠ 13 := fun hc => h (hc ▸ List.mem_cons_self a r)
      rw [splitLines_cons a r ha, ih (fun hb => h (List.mem_cons_of_mem _ hb))]
      rfl

theorem splitLines_mfSectionPiece (e : String × List Nat)
    (hname : 13 ∉ strBytes e.1) :
    splitLines (mfSectionPiece e) =
      [strBytes "Name: " ++ strBytes e.1,
       strBytes "SHA1-Digest: " ++ b64Encode (sha1 e.2),
       strBytes "SHA-256-Digest: " ++ b64Encode (sha256 e.2)] := by
  rw [mfSectionPiece_as_pieceOf, pieceOf,
    splitLines_peel2 _ _ _ (by decide) hname,
    splitLines_peel _ _ (noCR_app (by decide) (noCR_b64 _)),
    splitLines_noCR _ (noCR_app (by decide) (noCR_b64 _))]

theorem splitLines_mfSectionPieceCRLF (e : String × List Nat)
    (hname : 13 ∉ strBytes e.1) :
    splitLines (mfSectionPiece e ++ [13, 10]) =
      [strBytes "Name: " ++ strBytes e.1,
       strBytes "SHA1-Digest: " ++ b64Encode (sha1 e.2),
       strBytes "SHA-256-Digest: " ++ b64Encode (sha256 e.2),
       []] := by
  rw [mfSectionPieceCRLF_as_pieceOf, pieceOf,
    splitLines_peel2 _ _ _ (by decide) hname,
    splitLines_peel _ _ (noCR_app (by decide) (noCR_b64 _)),
    splitLines_peel _ _ (noCR_app (by decide) (noCR_b64 _))]
  rfl

theorem mfPieces_length : ∀ es : List (String × List Nat),
    (mfPieces es).length = es.length := by
  intro es
  induction es with
  | nil => rfl
  | cons e r ih =>
      match r with
      | [] => rfl
      | e2 :: r' =>
          rw [show mfPieces (e :: e2 :: r') =
            mfSectionPiece e :: mfPieces (e2 :: r') from rfl]
          simp [ih]

theorem mfPieces_sections : ∀ es : List (String × List Nat),
    (∀ e ∈ es, 13 ∉ strBytes e.1) →
    ∀ p ∈ mfPieces es, ∃ e ∈ es,
      findNameLine p = some (strBytes e.1) ∧
      (strBytes "SHA1-Digest: " ++ b64Encode (sha1 e.2)) ∈ splitLines p ∧
      (strBytes "SHA-256-Digest: " ++ b64Encode (sha256 e.2)) ∈ splitLines p := by
  intro es
  induction es with
  | nil => intro _ p hp; exact absurd hp (by simp [mfPieces])
  | cons e r ih =>
      intro hn p hp
      have hname : 13 ∉ strBytes e.1 := hn e (List.mem_cons_self _ _)
      match r with
      | [] =>
          rw [show mfPieces [e] = [mfSectionPiece e ++ [13, 10]] from rfl] at hp
          have hpe : p = mfSectionPiece e ++ [13, 10] := by simpa using hp
          refine ⟨e, List.mem_cons_self _ _, ?_, ?_, ?_⟩
          · rw [hpe, mfSectionPieceCRLF_as_pieceOf]
            exact findNameLine_pieceOf e _ hname
          · rw [hpe, splitLines_mfSectionPieceCRLF e hname]; simp
          · rw [hpe, splitLines_mfSectionPieceCRLF e hname]; simp
      | e2 :: r' =>
          rw [show mfPieces (e :: e2 :: r') =
            mfSectionPiece e :: mfPieces (e2 :: r') from rfl] at hp
          rcases List.mem_cons.mp hp with hpe | hp'
          · refine ⟨e, List.mem_cons_self _ _, ?_, ?_, ?_⟩
            · rw [hpe, mfSectionPiece_as_pieceOf]
              exact findNameLine_pieceOf e _ hname
            · rw [hpe, splitLines_mfSectionPiece e hname]; simp
            · rw [hpe, splitLines_mfSectionPiece e hname]; simp
          · obtain ⟨e', he', h1, h2, h3⟩ :=
              ih (fun x hx => hn x (List.mem_cons_of_mem _ hx)) p hp'
            exact ⟨e', List.mem_cons_of_mem _ he', h1, h2, h3⟩

theorem copied_not_meta (input : List (String × List Nat)) :
    ∀ e ∈ copiedEntries input, ¬ isMetaInf e.1 := by
  intro e he
  obtain ⟨x, hx, hfx⟩ := List.mem_map.mp he
  have hx' := List.mem_filter.mp hx
  have hfst : e.1 = x.1 := by
    rw [← hfx]
    show (if x.1 = "AndroidManifest.xml" ∧ x.2.length < 100
      then (x.1, createBinaryManifestDefault) else x).1 = x.1
    split <;> rfl
  rw [hfst]
  simpa using hx'.2

theorem essential_all_not_meta (input : List (String × List Nat)) :
    (ensureEssentialFiles input).all (fun e => ! isMetaInf e.1) = true := by
  unfold ensureEssentialFiles
  split_ifs <;> decide

theorem essential_not_meta (input : List (String × List Nat)) :
    ∀ e ∈ ensureEssentialFiles input, ¬ isMetaInf e.1 := by
  intro e he
  have := List.all_eq_true.mp (essential_all_not_meta input) e he
  simpa using this

/-- C5: corrected frame property of signing.  Every non-META-INF input
entry that is not an `AndroidManifest.xml` under 100 bytes is carried
into the signed archive byte-for-byte; the output's name sequence is the
copied entries, then the backfilled essentials, then exactly
MANIFEST.MF, CERT.SF and CERT.RSA last in that order; and every entry
ahead of those three is non-META-INF.  (Small manifests are regenerated
rather than copied, refuting the claim's unconditional byte-for-byte
half.) -/
theorem c5_signed_apk_layout (input : List (String × List Nat))
    (buildDate sigDate : String) (rsaTs : Nat) :
    (∀ e ∈ input, ¬ isMetaInf e.1 →
      (e.1 = "AndroidManifest.xml" → 100 ≤ e.2.length) →
      e ∈ createRealisticSignedApk input buildDate sigDate rsaTs) ∧
    (createRealisticSignedApk input buildDate sigDate rsaTs).map Prod.fst =
      (copiedEntries input ++ ensureEssentialFiles input).map Prod.fst ++
        ["META-INF/MANIFEST.MF", "META-INF/CERT.SF", "META-INF/CERT.RSA"] ∧
    (∀ e ∈ copiedEntries input ++ ensureEssentialFiles input, ¬ isMetaInf e.1) := by
  refine ⟨?_, ?_, ?_⟩
  · intro e he hmeta hsize
    have h1 : e ∈ nonMetaEntries input :=
      List.mem_filter.mpr ⟨he, by simpa using hmeta⟩
    have h2 : (if e.1 = "AndroidManifest.xml" ∧ e.2.length < 100
        then (e.1, createBinaryManifestDefault) else e) = e := by
      rw [if_neg]
      rintro ⟨ha, hlen⟩
      have := hsize ha
      omega
    have hmem : e ∈ copiedEntries input := List.mem_map.mpr ⟨e, h1, h2⟩
    exact List.mem_append_left _ (List.mem_append_left _ hmem)
  · show ((copiedEntries input ++ ensureEssentialFiles input) ++
        [("META-INF/MANIFEST.MF", createEnhancedManifestMf input buildDate),
         ("META-INF/CERT.SF",
           createEnhancedCertSf (createEnhancedManifestMf input buildDate) sigDate),
         ("META-INF/CERT.RSA", createEnhancedCertRsa rsaTs)]).map Prod.fst = _
    rw [List.map_append]
    rfl
  · intro e he
    rcases List.mem_append.mp he with hc | hess
    · exact copied_not_meta input e hc
    · exact essential_not_meta input e hess

theorem c5_signed_apk_layout_witness :
    ("resources.arsc", [7]) ∈
      createRealisticSignedApk [("resources.arsc", [7])] "d" "s" 0 :=
  (c5_signed_apk_layout [("resources.arsc", [7])] "d" "s" 0).1
    ("resources.arsc", [7]) (by decide) (by decide) (by decide)

/-- C5 counterexample: a 3-byte `AndroidManifest.xml` payload is not
carried byte-for-byte into the signed archive — the copy step replaces
any manifest under 100 bytes with the regenerated default binary
manifest. -/
theorem c5_small_manifest_counterexample :
    ¬ ("AndroidManifest.xml", [1, 2, 3]) ∈
      createRealisticSignedApk
        [("AndroidManifest.xml", [1, 2, 3]), ("classes.dex", [0]),
         ("resources.arsc", [0])] "2024-01-01" "2024-01-01" 0 := by
  decide

/-- C6: corrected.  MANIFEST.MF splits into its header and exactly one
digest section per non-META-INF entry of the *input* archive; each
section carries the entry's name and SHA-1/SHA-256 digest lines computed
over the payload *as stored in the input archive* — not over the bytes
stored in the output archive, which differ for regenerated entries. -/
theorem c6_manifest_sections_per_entry (input : List (String × List Nat))
    (buildDate : String)
    (hdate : 13 ∉ strBytes buildDate)
    (hne : nonMetaEntries input ≠ [])
    (hnames : ∀ e ∈ nonMetaEntries input, 13 ∉ strBytes e.1) :
    ((splitSections (createEnhancedManifestMf input buildDate)).drop 1).length =
      (nonMetaEntries input).length ∧
    ∀ p ∈ (splitSections (createEnhancedManifestMf input buildDate)).drop 1,
      ∃ e ∈ nonMetaEntries input,
        findNameLine p = some (strBytes e.1) ∧
        (strBytes "SHA1-Digest: " ++ b64Encode (sha1 e.2)) ∈ splitLines p ∧
        (strBytes "SHA-256-Digest: " ++ b64Encode (sha256 e.2)) ∈ splitLines p := by
  rw [splitSections_manifest input buildDate hdate hne hnames]
  rw [show (mfHeaderPiece buildDate ::
    mfPieces (nonMetaEntries input)).drop 1 =
      mfPieces (nonMetaEntries input) from rfl]
  exact ⟨mfPieces_length _, mfPieces_sections _ hnames⟩

theorem c6_manifest_sections_per_entry_witness :
    ((splitSections (createEnhancedManifestMf [("classes.dex", [0])]
      "2024-01-01")).drop 1).length =
      (nonMetaEntries [("classes.dex", [0])]).length :=
  (c6_manifest_sections_per_entry [("classes.dex", [0])] "2024-01-01"
    (by decide) (by decide) (by decide)).1

/-- C6 counterexample: for a 3-byte input `AndroidManifest.xml`, the
signed archive stores the regenerated binary manifest as that entry's
payload, yet MANIFEST.MF carries the SHA-1 digest of the 3 input bytes
and no digest line for the bytes actually stored. -/
theorem c6_digest_counterexample :
    ("AndroidManifest.xml", createBinaryManifestDefault) ∈
      createRealisticSignedApk
        [("AndroidManifest.xml", [1, 2, 3]), ("classes.dex", [0]),
         ("resources.arsc", [0])] "2024-01-01" "2024-01-01" 0 ∧
    (strBytes "SHA1-Digest: " ++ b64Encode (sha1 [1, 2, 3])) ∈
      splitLines (createEnhancedManifestMf
        [("AndroidManifest.xml", [1, 2, 3]), ("classes.dex", [0]),
         ("resources.arsc", [0])] "2024-01-01") ∧
    ¬ (strBytes "SHA1-Digest: " ++ b64Encode (sha1 createBinaryManifestDefault)) ∈
      splitLines (createEnhancedManifestMf
        [("AndroidManifest.xml", [1, 2, 3]), ("classes.dex", [0]),
         ("resources.arsc", [0])] "2024-01-01") := by
  refine ⟨?_, by decide, by decide⟩
  have h : ("AndroidManifest.xml", createBinaryManifestDefault) ∈
      copiedEntries [("AndroidManifest.xml", [1, 2, 3]), ("classes.dex", [0]),
        ("resources.arsc", [0])] := by
    unfold copiedEntries nonMetaEntries
    refine List.mem_map.mpr ⟨("AndroidManifest.xml", [1, 2, 3]), by decide, ?_⟩
    rw [if_pos ⟨rfl, by decide⟩]
  simp only [createRealisticSignedApk, List.mem_append]
  tauto

/-- C10: once the output archive is written, the signing routine reports
success for every archive — the validation check only selects between
two `True` branches — and a `true` outcome therefore does not imply that
the produced archive passes the signed-archive validation. -/
theorem c10_sign_outcome_unconditional :
    (∀ a : List (String × List Nat), signApkOutcome a = true) ∧
    ¬ (∀ a : List (String × List Nat),
        signApkOutcome a = true → validateSignedApk a = true) := by
  constructor
  · intro a
    unfold signApkOutcome
    split <;> rfl
  · intro h
    exact absurd (h [] (by decide)) (by decide)

theorem manifestEntryData_eq (t : SourceTree) :
    manifestEntryData t = createBinaryManifestDefault := by
  unfold manifestEntryData
  cases t.manifestXml <;> rfl

/-- C3: corrected entry order of the assembler.  Every unsigned archive
starts with `AndroidManifest.xml`, followed by the resource and asset
entries, then `classes.dex` and `resources.arsc` — but lib entries are
appended *after* `resources.arsc`, so the last two entries of the
archive are `classes.dex` and `resources.arsc` only when the source
tree has no `lib/` directory. -/
theorem c3_entry_order (t : SourceTree) :
    ∃ mid libs,
      (simulateCompile t).1 =
        ("AndroidManifest.xml", createBinaryManifestDefault) ::
          (mid ++ [("classes.dex", createRealisticDex t.originalSize),
                   ("resources.arsc", createResourcesArsc)] ++ libs) ∧
      (t.libFiles = none → libs = []) ∧
      ((simulateCompile t).1.map Prod.fst).head? = some "AndroidManifest.xml" := by
  refine ⟨(resPart t).1 ++ (assetPart t).1, (libPart t).1, ?_, ?_, rfl⟩
  · simp only [simulateCompile, manifestEntryData_eq]
  · intro h
    show (libPart t).1 = []
    unfold libPart
    rw [h]

/-- C3 counterexample: with a single native library in `lib/`, the last
archive entry is the lib file, not `resources.arsc`. -/
theorem c3_lib_last_counterexample :
    (((simulateCompile ⟨none, none, none,
        some [⟨"lib/armeabi/libnative.so", [1], true⟩], 0⟩).1.map
          Prod.fst).getLast?) = some "lib/armeabi/libnative.so" ∧
    ¬ (((simulateCompile ⟨none, none, none,
        some [⟨"lib/armeabi/libnative.so", [1], true⟩], 0⟩).1.map
          Prod.fst).getLast?) = some "resources.arsc" := by
  constructor <;> decide

/-- C7: corrected error handling for resource XML files.  A resource
XML that cannot be read or decoded is *not* dropped and records *no*
warning: the XML branch of the resource loop never touches the input
file — `_create_binary_xml` ignores its path argument — so the entry is
always written with the fixed 1024-byte binary-XML blob, and the file
never reaches the warning path.  (The build does still succeed.) -/
theorem c7_xml_resources_kept (fs : List SrcFile) (f : SrcFile)
    (hf : f ∈ fs)
    (himg : isImagePath f.path = false)
    (hxml : endsWithStr f.path ".xml" = true) :
    resFileStep f = some (f.path, createBinaryXml) ∧
    (f.path, createBinaryXml) ∈ (addResourcesToApk fs).1 ∧
    (f ∉ fs.filter (fun g => (resFileStep g).isNone)) ∧
    ∀ t : SourceTree, t.resFiles = some fs →
      (f.path, createBinaryXml) ∈ (simulateCompile t).1 := by
  have hstep : resFileStep f = some (f.path, createBinaryXml) := by
    simp [resFileStep, himg, hxml]
  refine ⟨hstep, List.mem_filterMap.mpr ⟨f, hf, hstep⟩, ?_, ?_⟩
  · intro hmem
    have h2 := (List.mem_filter.mp hmem).2
    rw [hstep] at h2
    simp at h2
  · intro t ht
    have hres : (resPart t).1 = (addResourcesToApk fs).1 := by
      unfold resPart
      rw [ht]
    apply List.mem_cons_of_mem
    apply List.mem_append_left
    apply List.mem_append_left
    apply List.mem_append_left
    rw [hres]
    exact List.mem_filterMap.mpr ⟨f, hf, hstep⟩

theorem c7_xml_resources_kept_witness :
    resFileStep ⟨"res/values/weird.xml", [255, 0], false⟩ =
      some ("res/values/weird.xml", createBinaryXml) :=
  (c7_xml_resources_kept [⟨"res/values/weird.xml", [255, 0], false⟩]
    ⟨"res/values/weird.xml", [255, 0], false⟩
    (List.mem_cons_self _ _) (by decide) (by decide)).1

/-- C7 counterexample: an unreadable `res/values/weird.xml` is kept in
the archive (with the fixed binary-XML blob) and the warning list is
empty — the claim's drop-with-one-warning behaviour does not occur. -/
theorem c7_xml_counterexample :
    ("res/values/weird.xml", createBinaryXml) ∈
      (simulateCompile ⟨none, some [⟨"res/values/weird.xml", [255, 0], false⟩],
        none, none, 0⟩).1 ∧
    (simulateCompile ⟨none, some [⟨"res/values/weird.xml", [255, 0], false⟩],
      none, none, 0⟩).2 = [] :=
  ⟨List.mem_cons_of_mem _
    (List.mem_append_left _ (List.mem_append_left _ (List.mem_append_left _
      (List.mem_filterMap.mpr ⟨⟨"res/values/weird.xml", [255, 0], false⟩,
        List.mem_cons_self _ _, rfl⟩)))),
   rfl⟩

theorem containsSig_append_right (A B : List Nat) (h : containsSig B = true) :
    containsSig (A ++ B) = true := by
  induction A with
  | nil => simpa using h
  | cons a A' ih => simp [containsSig, ih]

theorem eocdRecord_containsSig (n a b : Nat) : containsSig (eocdRecord n a b) = true := rfl

theorem zipSerialize_eq (entries : List (String × List Nat)) (t d : Nat) :
    zipSerialize entries t d =
      (entries.flatMap (zipLocalEntry t d) ++ zipCentralGo t d 0 entries) ++
        eocdRecord entries.length (zipCentralGo t d 0 entries).length
          (entries.flatMap (zipLocalEntry t d)).length := rfl

theorem zip_suffix_readable (w : Nat) (hw : 22 ≤ w) (X E : List Nat)
    (hE : E.length = 22) (hsig : containsSig E = true) :
    zipReadable w (X ++ E) = true := by
  unfold zipReadable
  rw [List.length_append, hE, List.drop_append_eq_append_drop]
  have h1 : X.length + 22 - w - X.length = 0 := by omega
  rw [h1, List.drop_zero]
  exact containsSig_append_right _ _ hsig

theorem zipSerialize_readable (w : Nat) (hw : 22 ≤ w)
    (entries : List (String × List Nat)) (t d : Nat) :
    zipReadable w (zipSerialize entries t d) = true := by
  rw [zipSerialize_eq]
  exact zip_suffix_readable w hw _ _ rfl (eocdRecord_containsSig _ _ _)

theorem length_flatten_replicate (k : Nat) (c : List Nat) :
    (List.replicate k c).flatten.length = k * c.length := by
  induction k with
  | zero => simp
  | succ k ih =>
      rw [List.replicate_succ, List.flatten_cons, List.length_append, ih]
      ring

theorem not_mem_flatten_replicate (x : Nat) (k : Nat) (c : List Nat) (h : x ∉ c) :
    x ∉ (List.replicate k c).flatten := by
  induction k with
  | zero => simp
  | succ k ih =>
      rw [List.replicate_succ, List.flatten_cons]
      simp only [List.mem_append, not_or]
      exact ⟨h, ih⟩

theorem not75_padding (k : Nat) : 75 ∉ (List.replicate k paddingChunk).flatten := by
  apply not_mem_flatten_replicate
  unfold paddingChunk
  apply not_mem_flatten_replicate
  decide

theorem containsSig_eq_false (l : List Nat) (h : 75 ∉ l) : containsSig l = false := by
  induction l with
  | nil => rfl
  | cons a r ih =>
      rw [containsSig, ih (fun hb => h (List.mem_cons_of_mem _ hb)), Bool.or_false]
      cases hbeq : ((a :: r).take 4 == eocdSig) with
      | false => rfl
      | true =>
          exfalso
          have heq : (a :: r).take 4 = eocdSig := eq_of_beq hbeq
          have h75 : 75 ∈ (a :: r).take 4 := by
            rw [heq]
            decide
          exact h (List.take_subset _ _ h75)

theorem paddingChunk_length : paddingChunk.length = 8192 := by
  unfold paddingChunk
  rw [length_flatten_replicate]
  decide

theorem padApkFile_unreadable (w : Nat) (file : List Nat) (target : Nat)
    (hw : 0 < w)
    (hpad : lenGo file 0 + w ≤ target) :
    zipReadable w (padApkFile file target) = false := by
  have hlen : file.length + w ≤ target := by
    rw [lenGo_eq] at hpad
    omega
  unfold padApkFile
  rw [if_pos (by rw [lenGo_eq]; omega)]
  unfold zipReadable
  have hP : ((List.replicate ((target - lenGo file 0) / 8192 + 1) paddingChunk).flatten.take
      (target - lenGo file 0)).length = target - lenGo file 0 := by
    rw [List.length_take, length_flatten_replicate, paddingChunk_length]
    omega
  rw [List.length_append, hP, List.drop_append_eq_append_drop,
    List.drop_eq_nil_of_le (by rw [lenGo_eq]; omega), List.nil_append]
  apply containsSig_eq_false
  intro hmem
  exact not75_padding _ (List.take_subset _ _ (List.drop_subset _ _ hmem))

theorem assembleBytes_pad_unreadable (w : Nat) (tree : SourceTree) (t d : Nat)
    (hw : 0 < w)
    (hsmall : lenGo (zipSerialize (simulateCompile tree).1 t d) 0 < 50000)
    (hpad : lenGo (zipSerialize (simulateCompile tree).1 t d) 0 + w ≤
      max (tree.originalSize / 3) 200000) :
    zipReadable w (assembleBytes tree t d) = false := by
  show zipReadable w
    (if lenGo (zipSerialize (simulateCompile tree).1 t d) 0 < 50000 then
      padApkFile (zipSerialize (simulateCompile tree).1 t d)
        (max (tree.originalSize / 3) 200000)
     else zipSerialize (simulateCompile tree).1 t d) = false
  rw [if_pos hsmall]
  exact padApkFile_unreadable w _ _ hw hpad

/-- C8: refuted — code bug.  For every end-record search window of at
least 22 bytes: a freshly serialized archive exposes its
end-of-central-directory signature inside the window, so unpadded
outputs are readable; but once the size-floor padding appends `w` or
more bytes of `PADDING_` text after the end record, the signature falls
outside the window and the file is no longer readable as a ZIP; in
particular every compile output under 50000 bytes whose padding target
exceeds its length by the window size becomes unreadable. -/
theorem c8_padding_breaks_readability (w : Nat) (hw : 22 ≤ w) :
    (∀ (entries : List (String × List Nat)) (t d : Nat),
      zipReadable w (zipSerialize entries t d) = true) ∧
    (∀ (file : List Nat) (target : Nat),
      lenGo file 0 + w ≤ target →
      zipReadable w (padApkFile file target) = false) ∧
    (∀ (tree : SourceTree) (t d : Nat),
      lenGo (zipSerialize (simulateCompile tree).1 t d) 0 < 50000 →
      lenGo (zipSerialize (simulateCompile tree).1 t d) 0 + w ≤
        max (tree.originalSize / 3) 200000 →
      zipReadable w (assembleBytes tree t d) = false) :=
  ⟨fun entries t d => zipSerialize_readable w hw entries t d,
   fun file target h => padApkFile_unreadable w file target (by omega) h,
   fun tree t d h1 h2 => assembleBytes_pad_unreadable w tree t d (by omega) h1 h2⟩

theorem c8_padding_breaks_readability_witness :
    zipReadable 22 (zipSerialize [("a", [1])] 3 4) = true ∧
    zipReadable 22 (padApkFile [9] 100) = false ∧
    zipReadable 22 (assembleBytes ⟨none, none, none, none, 0⟩ 0 0) = false :=
  ⟨(c8_padding_breaks_readability 22 (by decide)).1 [("a", [1])] 3 4,
   (c8_padding_breaks_readability 22 (by decide)).2.1 [9] 100 (by decide),
   (c8_padding_breaks_readability 22 (by decide)).2.2 ⟨none, none, none, none, 0⟩ 0 0
     (by decide) (by decide)⟩

theorem zipSerialize_time_congr (entries : List (String × List Nat))
    (t1 d1 t2 d2 : Nat)
    (ht : t1 % 65536 = t2 % 65536) (hd : d1 % 65536 = d2 % 65536) :
    zipSerialize entries t1 d1 = zipSerialize entries t2 d2 := by
  have hl : zipLocalEntry t1 d1 = zipLocalEntry t2 d2 := by
    funext e
    unfold zipLocalEntry
    rw [ht, hd]
  have hc : ∀ (off : Nat) (es : List (String × List Nat)),
      zipCentralGo t1 d1 off es = zipCentralGo t2 d2 off es := by
    intro off es
    induction es generalizing off with
    | nil => rfl
    | cons e r ih =>
        show zipCentralEntry t1 d1 off e ++ zipCentralGo t1 d1 _ r =
          zipCentralEntry t2 d2 off e ++ zipCentralGo t2 d2 _ r
        rw [show zipCentralEntry t1 d1 off e = zipCentralEntry t2 d2 off e by
          unfold zipCentralEntry
          rw [ht, hd], ih]
  show entries.flatMap (zipLocalEntry t1 d1) ++ zipCentralGo t1 d1 0 entries ++
      eocdRecord entries.length (zipCentralGo t1 d1 0 entries).length
        (entries.flatMap (zipLocalEntry t1 d1)).length =
    zipSerialize entries t2 d2
  rw [hl, hc]
  rfl

/-- C9: corrected determinism.  The resource-table encoder is a
constant — `resources.arsc` is stored with the same
`createResourcesArsc` payload on every run — and assembling the same
source tree twice yields byte-identical archives exactly when the DOS
timestamp fields written into the ZIP headers agree; the output is
otherwise a function of the tree alone. -/
theorem c9_assemble_determinism (tree : SourceTree) (t1 d1 t2 d2 : Nat)
    (ht : t1 % 65536 = t2 % 65536) (hd : d1 % 65536 = d2 % 65536) :
    assembleBytes tree t1 d1 = assembleBytes tree t2 d2 ∧
    ("resources.arsc", createResourcesArsc) ∈ (simulateCompile tree).1 := by
  constructor
  · exact congrArg
      (fun file => if lenGo file 0 < 50000 then
        padApkFile file (max (tree.originalSize / 3) 200000) else file)
      (zipSerialize_time_congr (simulateCompile tree).1 t1 d1 t2 d2 ht hd)
  · apply List.mem_cons_of_mem
    apply List.mem_append_left
    apply List.mem_append_right
    exact List.mem_cons_of_mem _ (List.mem_cons_self _ _)

theorem c9_assemble_determinism_witness :
    assembleBytes ⟨none, none, none, none, 0⟩ 65537 0 =
      assembleBytes ⟨none, none, none, none, 0⟩ 1 0 :=
  (c9_assemble_determinism ⟨none, none, none, none, 0⟩ 65537 0 1 0 (by decide)
    (by decide)).1

/-- C9 counterexample: two runs over the identical empty source tree,
one clock tick apart, produce archives differing at byte 10 — the DOS
time field of the first local file header. -/
theorem c9_timestamp_counterexample :
    assembleBytes ⟨none, none, none, none, 0⟩ 1 0 ≠
      assembleBytes ⟨none, none, none, none, 0⟩ 2 0 :=
  fun h => absurd (congrArg (fun l => l.getD 10 0) h) (by decide)

end Apk
